import Mathlib

/-!
Verification of the SkillForge progression engine.

This file shallowly embeds the progression engine of the repository:

* `src/lib/gamification.ts` — leveling calculator, streak tracker,
  achievement rule engine (`xpForUserLevel`, `calculateUserLevel`,
  `xpForSkillLevel`, `calculateSkillLevel`, `calculateStreak`,
  `ACHIEVEMENT_DEFINITIONS`, `checkNewAchievements`);
* `src/app/api/tasks/[taskId]/complete/route.ts` — the single-task
  completion orchestrator (`completeTask` below);
* `src/app/api/tasks/bulk-complete/route.ts` — the bulk completion
  orchestrator (`completeTasksBulk` below).

Modelling conventions:

* JavaScript numbers holding XP values are modelled as `Int`
  (task `xpReward`, a database column, as `Nat`).
* `Math.pow(1.5, n)` and `Math.pow(1.3, n)` are modelled exactly as the
  rationals `3^n / 2^n` and `13^n / 10^n`; `Math.floor` of a non-negative
  rational is natural-number division.
* Timestamps (`Date`) are minutes since an epoch (`Int`); the JavaScript
  `toDateString` comparison of two dates is modelled as comparing the
  calendar-day index `t / 1440`, and an hour difference `h` compared by
  `hoursDiff <= 48` is modelled as minutes `<= 2880`.
* Each `prisma.*.update` / `create` call persists immediately into the
  `DB` value threaded through the orchestrator.  The single-task route
  runs outside any transaction, so on an error return the mutations made
  so far remain in the returned `DB`; the bulk route wraps its body in
  `prisma.$transaction`, so on an error thrown inside the body the
  original `DB` is returned (rollback).
* The external quality-evaluation collaborator (`evaluateTaskCompletion`)
  is a parameter: `none` models the call throwing (fall back to base XP),
  `some e` models a successful evaluation.  Every call made to it is
  recorded in the emitted event trace.
* Database rows are lists of structures; `findUnique` is `List.find?` on
  the id field and `update` rewrites the rows with the given id.
-/

namespace SkillForge

/-- Skill status enum, from `prisma/schema` (`SkillStatus`). -/
inductive SkillStatus where
  | LOCKED
  | AVAILABLE
  | IN_PROGRESS
  | COMPLETED
  | MASTERED
deriving DecidableEq, Repr

/-- Achievement rarity enum, from `prisma/schema` (`Rarity`). -/
inductive Rarity where
  | COMMON
  | RARE
  | EPIC
  | LEGENDARY
deriving DecidableEq, Repr

/-- Activity type values written by the two completion routes. -/
inductive ActivityType where
  | TASK_COMPLETE
  | LEVEL_UP
  | SKILL_UNLOCKED
deriving DecidableEq, Repr

/-- A `Task` row, with the fields the completion routes read or write. -/
structure Task where
  id : Nat
  skillId : Nat
  title : String
  xpReward : Nat
  completed : Bool
  completedAt : Option Int
  submission : Option String
  notes : Option String
  qualityScore : Option Int
  aiFeedback : Option String
deriving DecidableEq, Repr

/-- A `Skill` row, with its many-to-many prerequisite relation flattened
to the list of prerequisite skill ids. -/
structure Skill where
  id : Nat
  treeId : Nat
  name : String
  currentXP : Int
  currentLevel : Nat
  maxLevel : Nat
  status : SkillStatus
  completedAt : Option Int
  unlockedAt : Option Int
  xpToNextLevel : Int
  prerequisiteIds : List Nat
deriving DecidableEq, Repr

/-- A `SkillTree` row (only the owner matters to the engine). -/
structure Tree where
  id : Nat
  userId : Nat
deriving DecidableEq, Repr

/-- A `User` row, with the progression fields. -/
structure User where
  id : Nat
  totalXP : Int
  level : Nat
  currentStreak : Nat
  longestStreak : Nat
  lastActiveAt : Option Int
deriving DecidableEq, Repr

/-- An `Activity` row as created by the completion routes. -/
structure Activity where
  type : ActivityType
  userId : Nat
  skillId : Option Nat
  taskId : Option Nat
  xpGained : Int
  description : String
deriving DecidableEq, Repr

/-- The persistent store: one list of rows per relation.  The
achievement catalog is the list of seeded achievement ids, and
`userAchievements` is the join table as (userId, achievementId) pairs. -/
structure DB where
  users : List User
  trees : List Tree
  skills : List Skill
  tasks : List Task
  activities : List Activity
  achievements : List String
  userAchievements : List (Nat × String)
deriving DecidableEq, Repr

/-- Result of the external quality-evaluation collaborator
(`TaskEvaluationSchema` in `src/lib/ai.ts`): `qualityScore` is
constrained to 1..10 by the zod schema, `suggestedXP` is an arbitrary
number. -/
structure TaskEvaluation where
  qualityScore : Int
  suggestedXP : Int
  feedback : String
deriving DecidableEq, Repr

-- ===========================================================================
-- Leveling calculator (src/lib/gamification.ts)
-- ===========================================================================

/-- `xpForUserLevel(level)`: 0 for level <= 1, else
`Math.floor(100 * 1.5^(level-1))`, modelled exactly. -/
def xpForUserLevel (level : Nat) : Int :=
  if level ≤ 1 then 0
  else ((100 * 3 ^ (level - 1) / 2 ^ (level - 1) : Nat) : Int)

/-- `totalXpForUserLevel(level)`: sum of `xpForUserLevel i` for
`i = 2 .. level`. -/
def totalXpForUserLevel : Nat → Int
  | 0 => 0
  | 1 => 0
  | l + 2 => totalXpForUserLevel (l + 1) + xpForUserLevel (l + 2)

/-- Greedy while-loop of `calculateUserLevel`, with fuel.  The source's
loop `while (xpSum + xpForUserLevel(level+1) <= totalXp)` terminates
because each iteration adds at least 150 XP; `calculateUserLevel`
supplies fuel that is provably never exhausted. -/
def calculateUserLevelAux (totalXp : Int) : Nat → Nat → Int → Nat
  | 0, level, _ => level
  | fuel + 1, level, xpSum =>
    if xpSum + xpForUserLevel (level + 1) ≤ totalXp then
      calculateUserLevelAux totalXp fuel (level + 1) (xpSum + xpForUserLevel (level + 1))
    else level

/-- `calculateUserLevel(totalXp)`: greedy accumulation starting at
level 1, `xpSum` 0. -/
def calculateUserLevel (totalXp : Int) : Nat :=
  calculateUserLevelAux totalXp (totalXp.toNat + 1) 1 0

/-- `xpToNextUserLevel(totalXp)`. -/
def xpToNextUserLevel (totalXp : Int) : Int :=
  let currentLevel := calculateUserLevel totalXp
  let xpForNext := xpForUserLevel (currentLevel + 1)
  let totalForCurrent := totalXpForUserLevel currentLevel
  xpForNext - (totalXp - totalForCurrent)

/-- `xpForSkillLevel(level)`: 0 for level <= 1, else
`Math.floor(50 * 1.3^(level-1))`, modelled exactly. -/
def xpForSkillLevel (level : Nat) : Int :=
  if level ≤ 1 then 0
  else ((50 * 13 ^ (level - 1) / 10 ^ (level - 1) : Nat) : Int)

/-- `totalXpForSkillLevel(level)`: sum of `xpForSkillLevel i` for
`i = 2 .. level`. -/
def totalXpForSkillLevel : Nat → Int
  | 0 => 0
  | 1 => 0
  | l + 2 => totalXpForSkillLevel (l + 1) + xpForSkillLevel (l + 2)

/-- Greedy while-loop of `calculateSkillLevel`, with fuel.  The guard
`level < maxLevel` bounds the iteration count by `maxLevel`, which is
the fuel supplied by `calculateSkillLevel`. -/
def calculateSkillLevelAux (currentXp : Int) (maxLevel : Nat) : Nat → Nat → Int → Nat
  | 0, level, _ => level
  | fuel + 1, level, xpSum =>
    if level < maxLevel ∧ xpSum + xpForSkillLevel (level + 1) ≤ currentXp then
      calculateSkillLevelAux currentXp maxLevel fuel (level + 1) (xpSum + xpForSkillLevel (level + 1))
    else level

/-- `calculateSkillLevel(currentXp, maxLevel)`. -/
def calculateSkillLevel (currentXp : Int) (maxLevel : Nat) : Nat :=
  calculateSkillLevelAux currentXp maxLevel maxLevel 1 0

example : xpForUserLevel 2 = 150 := by decide
example : xpForUserLevel 3 = 225 := by decide
example : xpForSkillLevel 2 = 65 := by decide
example : xpForSkillLevel 3 = 84 := by decide
example : calculateUserLevel 0 = 1 := by decide
example : calculateUserLevel 150 = 2 := by decide
example : calculateUserLevel 374 = 2 := by decide
example : calculateUserLevel 375 = 3 := by decide
example : calculateSkillLevel 65 10 = 2 := by decide
example : calculateSkillLevel 1000000 3 = 3 := by decide

-- ===========================================================================
-- Streak tracker (src/lib/gamification.ts)
-- ===========================================================================

/-- Calendar-day index of a timestamp in minutes (models
`Date.toDateString` equality between two dates as equality of this
index). -/
def dayIndex (t : Int) : Int := t / 1440

/-- `doesContinueStreak(last, new)`: hour difference at most 48. -/
def doesContinueStreak (lastActivityDate newActivityDate : Int) : Bool :=
  newActivityDate - lastActivityDate ≤ 2880

/-- `isNewDay(date1, date2)`: different calendar days. -/
def isNewDay (date1 date2 : Int) : Bool :=
  dayIndex date1 ≠ dayIndex date2

/-- Return value of `calculateStreak`. -/
structure StreakResult where
  currentStreak : Nat
  longestStreak : Nat
  streakBroken : Bool
deriving DecidableEq, Repr

/-- `calculateStreak(lastActivityDate, currentStreak, longestStreak,
activityDate)`. -/
def calculateStreak (lastActivityDate : Option Int) (currentStreak longestStreak : Nat)
    (activityDate : Int) : StreakResult :=
  match lastActivityDate with
  | none =>
    { currentStreak := 1, longestStreak := max 1 longestStreak, streakBroken := false }
  | some last =>
    if ¬ isNewDay last activityDate then
      { currentStreak := currentStreak, longestStreak := longestStreak, streakBroken := false }
    else if doesContinueStreak last activityDate then
      let newStreak := currentStreak + 1
      { currentStreak := newStreak, longestStreak := max newStreak longestStreak,
        streakBroken := false }
    else
      { currentStreak := 1, longestStreak := longestStreak, streakBroken := true }

example :
    calculateStreak (some (1 * 1440 + 600)) 3 5 (2 * 1440 + 540) =
      { currentStreak := 4, longestStreak := 5, streakBroken := false } := by decide

-- ===========================================================================
-- Achievement rule engine (src/lib/gamification.ts)
-- ===========================================================================

/-- Snapshot consumed by the achievement predicates
(`AchievementCheckData`). -/
structure AchievementCheckData where
  userTotalXP : Int
  userLevel : Nat
  userCurrentStreak : Nat
  userLongestStreak : Nat
  skillTrees : List Nat
  skills : List (Nat × SkillStatus × Option Int × Nat)
  tasks : List (Nat × Option Int)
  activities : List ActivityType
deriving DecidableEq, Repr

/-- One achievement definition (`AchievementDefinition`): static
metadata plus the pure `checkCondition` predicate. -/
structure AchievementDefinition where
  id : String
  name : String
  description : String
  rarity : Rarity
  checkCondition : AchievementCheckData → Bool

/-- Number of skills in the snapshot with a non-null `completedAt`. -/
def completedSkillCount (data : AchievementCheckData) : Nat :=
  (data.skills.filter (fun s => s.2.2.1 ≠ none)).length

/-- The `tree-complete` predicate: some tree has at least one skill and
every one of its skills is COMPLETED or MASTERED. -/
def treeCompleteCondition (data : AchievementCheckData) : Bool :=
  (data.skillTrees.filter (fun treeId =>
    let treeSkills := data.skills.filter (fun s => s.2.2.2 = treeId)
    treeSkills.length > 0 &&
      treeSkills.all (fun s => s.2.1 = .COMPLETED || s.2.1 = .MASTERED))).length ≥ 1

/-- `ACHIEVEMENT_DEFINITIONS`, in the source's order. -/
def ACHIEVEMENT_DEFINITIONS : List AchievementDefinition :=
  [ { id := "first-skill", name := "First Steps",
      description := "Complete your first skill", rarity := .COMMON,
      checkCondition := fun data => completedSkillCount data ≥ 1 },
    { id := "first-tree", name := "Tree Planter",
      description := "Create your first skill tree", rarity := .COMMON,
      checkCondition := fun data => data.skillTrees.length ≥ 1 },
    { id := "first-task", name := "Task Master",
      description := "Complete your first task", rarity := .COMMON,
      checkCondition := fun data =>
        (data.tasks.filter (fun t => t.2 ≠ none)).length ≥ 1 },
    { id := "streak-7", name := "Week Warrior",
      description := "Maintain a 7-day streak", rarity := .RARE,
      checkCondition := fun data => data.userCurrentStreak ≥ 7 },
    { id := "skills-10", name := "Dedicated Learner",
      description := "Complete 10 skills", rarity := .RARE,
      checkCondition := fun data => completedSkillCount data ≥ 10 },
    { id := "level-10", name := "Rising Star",
      description := "Reach level 10", rarity := .RARE,
      checkCondition := fun data => data.userLevel ≥ 10 },
    { id := "streak-30", name := "Month Master",
      description := "Maintain a 30-day streak", rarity := .EPIC,
      checkCondition := fun data => data.userCurrentStreak ≥ 30 },
    { id := "skills-50", name := "Knowledge Seeker",
      description := "Complete 50 skills", rarity := .EPIC,
      checkCondition := fun data => completedSkillCount data ≥ 50 },
    { id := "tree-complete", name := "Tree Master",
      description := "Complete an entire skill tree", rarity := .EPIC,
      checkCondition := treeCompleteCondition },
    { id := "streak-100", name := "Unstoppable",
      description := "Maintain a 100-day streak", rarity := .LEGENDARY,
      checkCondition := fun data => data.userCurrentStreak ≥ 100 },
    { id := "level-50", name := "Grandmaster",
      description := "Reach level 50", rarity := .LEGENDARY,
      checkCondition := fun data => data.userLevel ≥ 50 },
    { id := "skills-100", name := "Polymath",
      description := "Complete 100 skills", rarity := .LEGENDARY,
      checkCondition := fun data => completedSkillCount data ≥ 100 } ]

/-- `checkNewAchievements(data, earnedAchievementIds)`: ids of rules not
already earned whose predicate holds. -/
def checkNewAchievements (data : AchievementCheckData) (earnedAchievementIds : List String) :
    List String :=
  (ACHIEVEMENT_DEFINITIONS.filter (fun a =>
    ¬ earnedAchievementIds.contains a.id && a.checkCondition data)).map (·.id)

-- ===========================================================================
-- Database access helpers (prisma calls on list-valued relations)
-- ===========================================================================

/-- `prisma.task.findUnique({ where: { id } })`. -/
def taskFind (db : DB) (id : Nat) : Option Task :=
  db.tasks.find? (fun t => t.id = id)

/-- `prisma.skill.findUnique({ where: { id } })`. -/
def skillFind (db : DB) (id : Nat) : Option Skill :=
  db.skills.find? (fun s => s.id = id)

/-- `prisma.skillTree.findUnique({ where: { id } })`. -/
def treeFind (db : DB) (id : Nat) : Option Tree :=
  db.trees.find? (fun t => t.id = id)

/-- `prisma.user.findUnique({ where: { id } })`. -/
def userFind (db : DB) (id : Nat) : Option User :=
  db.users.find? (fun u => u.id = id)

/-- `prisma.task.update({ where: { id } })`: rewrite the rows with the
given id through `f`. -/
def updateTaskRow (db : DB) (id : Nat) (f : Task → Task) : DB :=
  { db with tasks := db.tasks.map (fun t => if t.id = id then f t else t) }

/-- `prisma.skill.update({ where: { id } })`. -/
def updateSkillRow (db : DB) (id : Nat) (f : Skill → Skill) : DB :=
  { db with skills := db.skills.map (fun s => if s.id = id then f s else s) }

/-- `prisma.user.update({ where: { id } })`. -/
def updateUserRow (db : DB) (id : Nat) (f : User → User) : DB :=
  { db with users := db.users.map (fun u => if u.id = id then f u else u) }

/-- `prisma.activity.create`. -/
def createActivity (db : DB) (a : Activity) : DB :=
  { db with activities := db.activities ++ [a] }

/-- Status of a skill row, by id. -/
def skillStatusIn (db : DB) (id : Nat) : Option SkillStatus :=
  (skillFind db id).map (·.status)

/-- Ownership check for a task: the user id of the tree of the task's
skill (`task.skill.tree.userId`). -/
def taskOwner (db : DB) (t : Task) : Option Nat :=
  match skillFind db t.skillId with
  | none => none
  | some s =>
    match treeFind db s.treeId with
    | none => none
    | some tr => some tr.userId

-- ===========================================================================
-- Orchestrator interface types
-- ===========================================================================

/-- Observable persistence / collaborator calls made by an orchestrator
run, in order.  `skillUpdate` is a skill-progression write (XP, level,
status, ...); `skillUnlock` is the unlock cascade's status-only write. -/
inductive Event where
  | evalCall
  | taskWrite (ids : List Nat)
  | skillUpdate (id : Nat) (newXP : Int) (newLevel : Nat) (newStatus : SkillStatus)
  | skillUnlock (id : Nat)
  | activityWrite (ty : ActivityType)
  | userWrite (id : Nat)
  | achievementCatalogWrite (id : String)
  | userAchievementWrite (id : String)
deriving DecidableEq, Repr

/-- Error responses of the single-task completion route: 404 task, 403,
400 "Task already completed", 404 user. -/
inductive CompletionError where
  | taskNotFound
  | forbidden
  | alreadyCompleted
  | userNotFound
deriving DecidableEq, Repr

/-- Error responses of the bulk completion route: the zod validation
failure, the two in-transaction guard throws, and the missing-user
throw. -/
inductive BulkError where
  | invalidRequest
  | noValidTasks
  | allTasksAlreadyCompleted
  | userNotFound
deriving DecidableEq, Repr

/-- Skill summary in a `CompletionResult`. -/
structure CompletionSkillInfo where
  id : Nat
  currentXP : Int
  currentLevel : Nat
  status : SkillStatus
  leveledUp : Bool
deriving DecidableEq, Repr

/-- User summary in a `CompletionResult`. -/
structure CompletionUserInfo where
  totalXP : Int
  level : Nat
  leveledUp : Bool
  xpToNextLevel : Int
  currentStreak : Nat
  longestStreak : Nat
  streakBroken : Bool
deriving DecidableEq, Repr

/-- Response body of the single-task completion route. -/
structure CompletionResult where
  xpAwarded : Int
  qualityScore : Option Int
  aiFeedback : Option String
  skill : CompletionSkillInfo
  user : CompletionUserInfo
  unlockedSkills : List Nat
  newAchievements : List String
deriving DecidableEq, Repr

/-- Response body of the bulk completion route. -/
structure BulkResult where
  tasksCompleted : Nat
  totalXP : Int
  newUserLevel : Nat
  newUserTotalXP : Int
  skillsUpdated : Nat
  currentStreak : Nat
  longestStreak : Nat
  newAchievements : List String
deriving DecidableEq, Repr

-- ===========================================================================
-- Unlock cascade (single-task route, lines 158-188)
-- ===========================================================================

/-- One iteration of the single route's dependent loop: re-fetch the
dependent with its prerequisites from the current store, unlock it when
every prerequisite is COMPLETED or MASTERED and the (pre-fetch) status
is LOCKED. -/
def unlockStepSingle (acc : DB × List Nat × List Event) (dependent : Skill) :
    DB × List Nat × List Event :=
  let db := acc.1
  match skillFind db dependent.id with
  | none => acc
  | some depRow =>
    let prereqRows := depRow.prerequisiteIds.filterMap (skillFind db)
    let allPrereqsCompleted :=
      prereqRows.all (fun p => p.status = .COMPLETED ∨ p.status = .MASTERED)
    if allPrereqsCompleted ∧ dependent.status = .LOCKED then
      (updateSkillRow db dependent.id (fun s => { s with status := .AVAILABLE }),
       acc.2.1 ++ [dependent.id], acc.2.2 ++ [.skillUnlock dependent.id])
    else acc

/-- The single route's unlock cascade over the dependents fetched with
the task. -/
def unlockDependentsSingle (db : DB) (dependents : List Skill) :
    DB × List Nat × List Event :=
  dependents.foldl unlockStepSingle (db, [], [])

-- ===========================================================================
-- Achievement detection and granting (shared verbatim by both routes)
-- ===========================================================================

/-- Build the `AchievementCheckData` snapshot the routes assemble from
their post-write queries: the user fields are the freshly computed
values, the relations are re-read from the store. -/
def buildCheckData (db : DB) (uid : Nat) (totalXP : Int) (level : Nat)
    (currentStreak longestStreak : Nat) : AchievementCheckData :=
  let ownedTrees := (db.trees.filter (fun tr => tr.userId = uid)).map (·.id)
  { userTotalXP := totalXP, userLevel := level,
    userCurrentStreak := currentStreak, userLongestStreak := longestStreak,
    skillTrees := ownedTrees,
    skills := (db.skills.filter (fun s => ownedTrees.contains s.treeId)).map
      (fun s => (s.id, s.status, s.completedAt, s.treeId)),
    tasks := (db.tasks.filter (fun t =>
      match skillFind db t.skillId with
      | some s => ownedTrees.contains s.treeId
      | none => false)).map (fun t => (t.id, t.completedAt)),
    activities := (db.activities.filter (fun a => a.userId = uid)).map (·.type) }

/-- Grant one newly detected achievement id: skip unknown ids, lazily
create the catalog row, insert the join row. -/
def grantStep (uid : Nat) (acc : DB × List String × List Event) (aid : String) :
    DB × List String × List Event :=
  let db := acc.1
  match ACHIEVEMENT_DEFINITIONS.find? (fun a => a.id = aid) with
  | none => acc
  | some _ =>
    let catalog :=
      if db.achievements.contains aid then (db, acc.2.2)
      else ({ db with achievements := db.achievements ++ [aid] },
            acc.2.2 ++ [.achievementCatalogWrite aid])
    ({ catalog.1 with userAchievements := catalog.1.userAchievements ++ [(uid, aid)] },
     acc.2.1 ++ [aid], catalog.2 ++ [.userAchievementWrite aid])

/-- Steps 10 of the single route / 7 of the bulk route: detect new
achievements against the snapshot and grant each. -/
def grantAchievements (db : DB) (uid : Nat) (data : AchievementCheckData) :
    DB × List String × List Event :=
  let earned := (db.userAchievements.filter (fun p => p.1 = uid)).map (·.2)
  let newIds := checkNewAchievements data earned
  newIds.foldl (grantStep uid) (db, [], [])

-- ===========================================================================
-- Single-task completion orchestrator
-- (src/app/api/tasks/[taskId]/complete/route.ts, POST)
-- ===========================================================================

/-- `completeTask`: the POST handler of the single-task completion
route.  `evalOutcome` is the external quality evaluation (consulted only
when a submission is present; `none` models the collaborator throwing,
in which case the base XP is used).  The route runs **without** a
transaction: every update is persisted as it happens, so error returns
carry whatever mutations were already made.  The missing-relation cases
of the prisma `include` (task without skill/tree rows) are folded into
the 404 task branch. -/
def completeTask (db : DB) (sessionUserId taskId : Nat)
    (submission notes : Option String) (evalOutcome : Option TaskEvaluation)
    (now : Int) : DB × List Event × Except CompletionError CompletionResult :=
  match taskFind db taskId with
  | none => (db, [], .error .taskNotFound)
  | some task =>
    match skillFind db task.skillId with
    | none => (db, [], .error .taskNotFound)
    | some skill =>
      match treeFind db skill.treeId with
      | none => (db, [], .error .taskNotFound)
      | some tree =>
        if tree.userId ≠ sessionUserId then (db, [], .error .forbidden)
        else if task.completedAt ≠ none then (db, [], .error .alreadyCompleted)
        else
          -- 2. AI evaluation (if submission provided)
          let evs0 : List Event := if submission.isSome then [.evalCall] else []
          let xpAwarded : Int :=
            if submission.isSome then
              match evalOutcome with
              | some e => e.suggestedXP
              | none => (task.xpReward : Int)
            else (task.xpReward : Int)
          let qualityScore : Option Int :=
            if submission.isSome then evalOutcome.map (·.qualityScore) else none
          let aiFeedback : Option String :=
            if submission.isSome then evalOutcome.map (·.feedback) else none
          -- 3. Update task
          let db1 := updateTaskRow db taskId (fun t =>
            { t with completed := true, completedAt := some now,
                     submission := submission, notes := notes,
                     qualityScore := qualityScore, aiFeedback := aiFeedback })
          let evs1 := evs0 ++ [.taskWrite [taskId]]
          -- 4. Skill progression (from the pre-fetch snapshot)
          let newSkillXP := skill.currentXP + xpAwarded
          let newSkillLevel := calculateSkillLevel newSkillXP skill.maxLevel
          let skillLeveledUp := decide (newSkillLevel > skill.currentLevel)
          let skillTasks := db.tasks.filter (fun t => t.skillId = skill.id)
          let allTasksCompleted :=
            skillTasks.all (fun t => t.id = taskId ∨ t.completedAt ≠ none)
          let newSkillStatus :=
            if allTasksCompleted ∧ skill.status = .IN_PROGRESS then SkillStatus.COMPLETED
            else skill.status
          let db2 := updateSkillRow db1 skill.id (fun s =>
            { s with currentXP := newSkillXP, currentLevel := newSkillLevel,
                     status := newSkillStatus,
                     completedAt := if newSkillStatus = .COMPLETED then some now else none,
                     xpToNextLevel :=
                       if newSkillLevel < skill.maxLevel then xpForSkillLevel (newSkillLevel + 1)
                       else 0 })
          let evs2 := evs1 ++ [.skillUpdate skill.id newSkillXP newSkillLevel newSkillStatus]
          -- 5. Unlock dependent skills
          let dependents := db.skills.filter (fun s => s.prerequisiteIds.contains skill.id)
          let unlocked :=
            if newSkillStatus = .COMPLETED then unlockDependentsSingle db2 dependents
            else (db2, [], [])
          let db3 := unlocked.1
          let unlockedSkills := unlocked.2.1
          let evs3 := evs2 ++ unlocked.2.2
          -- 6. User XP & leveling
          match userFind db3 sessionUserId with
          | none => (db3, evs3, .error .userNotFound)
          | some user =>
            let newUserTotalXP := user.totalXP + xpAwarded
            let newUserLevel := calculateUserLevel newUserTotalXP
            let userLeveledUp := decide (newUserLevel > user.level)
            -- 7. Streak tracking
            let streakUpdate :=
              calculateStreak user.lastActiveAt user.currentStreak user.longestStreak now
            -- 8. Activity records
            let db4 := createActivity db3
              { type := .TASK_COMPLETE, userId := sessionUserId,
                skillId := some skill.id, taskId := some task.id,
                xpGained := xpAwarded,
                description := "Completed task: " ++ task.title }
            let evs4 := evs3 ++ [.activityWrite .TASK_COMPLETE]
            let db5 :=
              if userLeveledUp then
                createActivity db4
                  { type := .LEVEL_UP, userId := sessionUserId, skillId := none,
                    taskId := none, xpGained := 0,
                    description := "Leveled up to " ++ toString newUserLevel ++ "!" }
              else db4
            let evs5 := evs4 ++ (if userLeveledUp then [.activityWrite .LEVEL_UP] else [])
            let db6 :=
              if newSkillStatus = .COMPLETED then
                createActivity db5
                  { type := .SKILL_UNLOCKED, userId := sessionUserId,
                    skillId := some skill.id, taskId := none, xpGained := 0,
                    description := "Completed skill: " ++ skill.name }
              else db5
            let evs6 := evs5 ++
              (if newSkillStatus = .COMPLETED then [.activityWrite .SKILL_UNLOCKED] else [])
            -- 9. Update user
            let db7 := updateUserRow db6 sessionUserId (fun u =>
              { u with totalXP := newUserTotalXP, level := newUserLevel,
                       currentStreak := streakUpdate.currentStreak,
                       longestStreak := streakUpdate.longestStreak,
                       lastActiveAt := some now })
            let evs7 := evs6 ++ [.userWrite sessionUserId]
            -- 10. Check achievements
            let data := buildCheckData db7 sessionUserId newUserTotalXP newUserLevel
              streakUpdate.currentStreak streakUpdate.longestStreak
            let granted := grantAchievements db7 sessionUserId data
            (granted.1, evs7 ++ granted.2.2,
             .ok { xpAwarded := xpAwarded, qualityScore := qualityScore,
                   aiFeedback := aiFeedback,
                   skill := { id := skill.id, currentXP := newSkillXP,
                              currentLevel := newSkillLevel, status := newSkillStatus,
                              leveledUp := skillLeveledUp },
                   user := { totalXP := newUserTotalXP, level := newUserLevel,
                             leveledUp := userLeveledUp,
                             xpToNextLevel := xpToNextUserLevel newUserTotalXP,
                             currentStreak := streakUpdate.currentStreak,
                             longestStreak := streakUpdate.longestStreak,
                             streakBroken := streakUpdate.streakBroken },
                   unlockedSkills := unlockedSkills,
                   newAchievements := granted.2.1 })

-- ===========================================================================
-- Bulk completion orchestrator (src/app/api/tasks/bulk-complete/route.ts)
-- ===========================================================================

/-- Value of the bulk route's `skillUpdates` map. -/
structure SkillUpdateEntry where
  currentXP : Int
  allCompleted : Bool
deriving DecidableEq, Repr

/-- `Map.get` on the association list modelling the `skillUpdates`
`Map`. -/
def mapGet (m : List (Nat × SkillUpdateEntry)) (k : Nat) : Option SkillUpdateEntry :=
  (m.find? (fun p => p.1 = k)).map (·.2)

/-- `Map.set`: replace the value in place when the key exists, append
otherwise (JavaScript `Map` keeps insertion order). -/
def mapSet (m : List (Nat × SkillUpdateEntry)) (k : Nat) (v : SkillUpdateEntry) :
    List (Nat × SkillUpdateEntry) :=
  if m.any (fun p => p.1 = k) then m.map (fun p => if p.1 = k then (k, v) else p)
  else m ++ [(k, v)]

/-- One iteration of the bulk route's grouping loop (lines 87-104):
accumulate the task's base XP onto the skill's entry and recompute
whether all of the skill's tasks are completed once the batch lands.
`db0` is the pre-transaction snapshot the fetched `task.skill` include
reflects. -/
def groupStep (db0 : DB) (incompleteTasks : List Task)
    (acc : List (Nat × SkillUpdateEntry)) (task : Task) :
    List (Nat × SkillUpdateEntry) :=
  match skillFind db0 task.skillId with
  | none => acc
  | some skill =>
    let existing := (mapGet acc skill.id).getD
      { currentXP := skill.currentXP, allCompleted := false }
    let newXP := existing.currentXP + (task.xpReward : Int)
    let skillTasks := db0.tasks.filter (fun t => t.skillId = skill.id)
    let completedTaskIds :=
      (skillTasks.filter (fun t => t.completedAt ≠ none)).map (·.id) ++
      (incompleteTasks.filter (fun t => t.skillId = skill.id)).map (·.id)
    let allCompleted := skillTasks.all (fun t => completedTaskIds.contains t.id)
    mapSet acc skill.id { currentXP := newXP, allCompleted := allCompleted }

/-- One iteration of the bulk cascade's dependent loop: the dependent
and its prerequisite rows were fetched from `dbAtFetch`; the triggering
skill's id counts as satisfied. -/
def bulkUnlockStep (skillId : Nat) (now : Int) (dbAtFetch : DB)
    (acc : DB × List Event) (dependent : Skill) : DB × List Event :=
  let prereqRows := dependent.prerequisiteIds.filterMap (skillFind dbAtFetch)
  let allPrereqsCompleted := prereqRows.all (fun p =>
    p.id = skillId ∨ p.status = .COMPLETED ∨ p.status = .MASTERED)
  if allPrereqsCompleted then
    (updateSkillRow acc.1 dependent.id
       (fun s => { s with status := .AVAILABLE, unlockedAt := some now }),
     acc.2 ++ [.skillUnlock dependent.id])
  else acc

/-- The bulk route's unlock cascade for one newly completed skill
(lines 129-156): fetch the LOCKED dependents (with their prerequisite
rows) from the current in-transaction store, then run the dependent
loop. -/
def bulkCascade (db : DB) (skillId : Nat) (now : Int) : DB × List Event :=
  (db.skills.filter (fun s =>
    s.prerequisiteIds.contains skillId ∧ s.status = .LOCKED)).foldl
    (bulkUnlockStep skillId now db) (db, [])

/-- One iteration of the bulk route's per-skill update loop (lines
107-157): one aggregated skill update, then the unlock cascade when the
skill newly completed.  `db0` is the pre-transaction snapshot from which
`tasks.find(...).skill` reads the stale skill row. -/
def bulkSkillStep (db0 : DB) (now : Int) (acc : DB × Nat × List Event)
    (entry : Nat × SkillUpdateEntry) : DB × Nat × List Event :=
  let db := acc.1
  match skillFind db0 entry.1 with
  | none => acc
  | some skill =>
    let newLevel := calculateSkillLevel entry.2.currentXP skill.maxLevel
    let newStatus := if entry.2.allCompleted then SkillStatus.COMPLETED else skill.status
    let db1 := updateSkillRow db entry.1 (fun s =>
      { s with currentXP := entry.2.currentXP, currentLevel := newLevel,
               status := newStatus,
               completedAt := if newStatus = .COMPLETED then some now else none,
               xpToNextLevel :=
                 if newLevel < skill.maxLevel then xpForSkillLevel (newLevel + 1)
                 else 0 })
    let evs1 := acc.2.2 ++ [.skillUpdate entry.1 entry.2.currentXP newLevel newStatus]
    if newStatus = .COMPLETED ∧ skill.status ≠ .COMPLETED then
      let unlocked := bulkCascade db1 entry.1 now
      (unlocked.1, acc.2.1 + 1, evs1 ++ unlocked.2)
    else (db1, acc.2.1 + 1, evs1)

/-- `completeTasksBulk`: the POST handler of the bulk completion route.
The body runs inside `prisma.$transaction`, so the guard throws
(`No valid tasks found`, `All tasks already completed`, `User not
found`) roll back every write and the original store is returned.
Ids that are missing, foreign-owned or already completed are silently
dropped by the two filters.  The zod schema bounds the request to 1-50
ids (the cuid format constraint is not modelled; ids are naturals).
No quality-evaluation call is made anywhere on this path. -/
def completeTasksBulk (db : DB) (userId : Nat) (taskIds : List Nat) (now : Int) :
    DB × List Event × Except BulkError BulkResult :=
  if taskIds.length < 1 ∨ taskIds.length > 50 then (db, [], .error .invalidRequest)
  else
    -- 1. Fetch all tasks with ownership verification
    let tasks := db.tasks.filter (fun t =>
      taskIds.contains t.id ∧ taskOwner db t = some userId)
    if tasks.length = 0 then (db, [], .error .noValidTasks)
    else
      let incompleteTasks := tasks.filter (fun t => t.completedAt = none)
      if incompleteTasks.length = 0 then (db, [], .error .allTasksAlreadyCompleted)
      else
        -- 2. Mark tasks complete (updateMany)
        let batchIds := incompleteTasks.map (·.id)
        let txdb1 := { db with tasks := db.tasks.map (fun t =>
          if batchIds.contains t.id then
            { t with completed := true, completedAt := some now }
          else t) }
        let evs1 : List Event := [.taskWrite batchIds]
        -- 3. Calculate total XP
        let totalXP : Int := incompleteTasks.foldl (fun sum t => sum + (t.xpReward : Int)) 0
        -- 4. Group tasks by skill and update skill progress
        let skillUpdates := incompleteTasks.foldl (groupStep db incompleteTasks) []
        let afterSkills := skillUpdates.foldl (bulkSkillStep db now) (txdb1, 0, [])
        let evs2 := evs1 ++ afterSkills.2.2
        -- 5. Update user stats
        match userFind afterSkills.1 userId with
        | none => (db, evs2, .error .userNotFound)
        | some user =>
          let newTotalXP := user.totalXP + totalXP
          let newLevel := calculateUserLevel newTotalXP
          let streakUpdate :=
            calculateStreak user.lastActiveAt user.currentStreak user.longestStreak now
          let db5 := updateUserRow afterSkills.1 userId (fun u =>
            { u with totalXP := newTotalXP, level := newLevel,
                     currentStreak := streakUpdate.currentStreak,
                     longestStreak := streakUpdate.longestStreak,
                     lastActiveAt := some now })
          let evs5 := evs2 ++ [.userWrite userId]
          -- 6. Create bulk activity record
          let db6 := createActivity db5
            { type := .TASK_COMPLETE, userId := userId, skillId := none,
              taskId := none, xpGained := totalXP,
              description :=
                "Completed " ++ toString incompleteTasks.length ++ " tasks in bulk" }
          let evs6 := evs5 ++ [.activityWrite .TASK_COMPLETE]
          -- 7. Check achievements (after the transaction commits)
          let data := buildCheckData db6 userId newTotalXP newLevel
            streakUpdate.currentStreak streakUpdate.longestStreak
          let granted := grantAchievements db6 userId data
          (granted.1, evs6 ++ granted.2.2,
           .ok { tasksCompleted := incompleteTasks.length, totalXP := totalXP,
                 newUserLevel := newLevel, newUserTotalXP := newTotalXP,
                 skillsUpdated := afterSkills.2.1,
                 currentStreak := streakUpdate.currentStreak,
                 longestStreak := streakUpdate.longestStreak,
                 newAchievements := granted.2.1 })

-- ===========================================================================
-- Concrete scenarios
-- ===========================================================================

instance {ε α : Type} [DecidableEq ε] [DecidableEq α] : DecidableEq (Except ε α)
  | .error e, .error f =>
    if h : e = f then .isTrue (by rw [h])
    else .isFalse (by intro hh; cases hh; exact h rfl)
  | .error _, .ok _ => .isFalse (by intro h; cases h)
  | .ok _, .error _ => .isFalse (by intro h; cases h)
  | .ok x, .ok y =>
    if h : x = y then .isTrue (by rw [h])
    else .isFalse (by intro hh; cases hh; exact h rfl)

/-- A fresh user: totalXP 0, level 1, no streak, never active. -/
def userW : User :=
  { id := 1, totalXP := 0, level := 1, currentStreak := 0, longestStreak := 0,
    lastActiveAt := none }

/-- The single tree of the end-to-end scenario, owned by user 1. -/
def treeW : Tree := { id := 1, userId := 1 }

/-- Skill A of the end-to-end scenario: no prerequisites, AVAILABLE. -/
def skillA : Skill :=
  { id := 10, treeId := 1, name := "A", currentXP := 0, currentLevel := 1,
    maxLevel := 10, status := .AVAILABLE, completedAt := none, unlockedAt := none,
    xpToNextLevel := 65, prerequisiteIds := [] }

/-- Skill B of the end-to-end scenario: prerequisite A, LOCKED. -/
def skillB : Skill :=
  { id := 20, treeId := 1, name := "B", currentXP := 0, currentLevel := 1,
    maxLevel := 10, status := .LOCKED, completedAt := none, unlockedAt := none,
    xpToNextLevel := 65, prerequisiteIds := [10] }

/-- An unfinished task row. -/
def mkTask (i sk xp : Nat) : Task :=
  { id := i, skillId := sk, title := "t", xpReward := xp, completed := false,
    completedAt := none, submission := none, notes := none, qualityScore := none,
    aiFeedback := none }

/-- The end-to-end scenario store: user with totalXP 0, skill A
(2 tasks of 50 XP), skill B (1 task of 100 XP, prerequisite A). -/
def dbC2 : DB :=
  { users := [userW], trees := [treeW], skills := [skillA, skillB],
    tasks := [mkTask 11 10 50, mkTask 12 10 50, mkTask 21 20 100],
    activities := [], achievements := [], userAchievements := [] }

/-- First completion of the scenario: task 11 (A's first task). -/
def runE2E1 : DB × List Event × Except CompletionError CompletionResult :=
  completeTask dbC2 1 11 none none none 2040

/-- Second completion, on the store produced by the first. -/
def runE2E2 : DB × List Event × Except CompletionError CompletionResult :=
  completeTask runE2E1.1 1 12 none none none 2100

/-- The same scenario store with the owning user row absent (the state
the route's own `User not found` branch anticipates). -/
def dbNoUser : DB := { dbC2 with users := [] }

/-- Completion attempt against `dbNoUser`. -/
def runNoUser : DB × List Event × Except CompletionError CompletionResult :=
  completeTask dbNoUser 1 11 none none none 2040

/-- An evaluation result that satisfies the zod schema
(`qualityScore` within 1..10; `suggestedXP` is unconstrained there)
but carries a negative suggested XP. -/
def evalNeg : TaskEvaluation := { qualityScore := 2, suggestedXP := -50, feedback := "weak" }

/-- Completion with a submission whose external evaluation suggests
-50 XP. -/
def runNegEval : DB × List Event × Except CompletionError CompletionResult :=
  completeTask dbC2 1 11 (some "my work") none (some evalNeg) 2040

-- ===========================================================================
-- C1.  Single-task completion is NOT all-or-nothing: the route runs
-- without a transaction, so a failure after the guard leaves earlier
-- writes persisted.
-- ===========================================================================

/-- C1: the single-task route persists partial state on a post-guard
failure.  On a store where the task is valid and owned but the user row
is missing, `completeTask` fails with `userNotFound` (the route's step-6
404) *after* having persisted the task completion and the skill XP
update — contradicting "all errors except external-evaluation failure
abort before any persistent mutation". -/
theorem completeTask_persists_partial_state_on_late_failure :
    runNoUser.2.2 = .error .userNotFound ∧
    taskFind runNoUser.1 11 =
      some { mkTask 11 10 50 with completed := true, completedAt := some 2040 } ∧
    (skillFind runNoUser.1 10).map (·.currentXP) = some 50 ∧
    runNoUser.1 ≠ dbNoUser := by decide

-- ===========================================================================
-- C2.  The end-to-end scenario diverges from the code: no code path
-- ever writes IN_PROGRESS, and the single route completes a skill only
-- from IN_PROGRESS, so skill A never completes, B never unlocks and
-- "first-skill" is never granted.
-- ===========================================================================

/-- C2: running the spec's end-to-end scenario against the code.  Both
completions succeed and the user XP reaches 50 then 100 as claimed, but
skill A stays AVAILABLE after the first completion (the claim says
AVAILABLE→IN_PROGRESS) and stays AVAILABLE after the second (the claim
says COMPLETED), skill B stays LOCKED (the claim says AVAILABLE), and
the "first-skill" achievement is not granted. -/
theorem endToEnd_scenario_code_divergence :
    runE2E1.2.2.isOk = true ∧
    skillStatusIn runE2E1.1 10 = some .AVAILABLE ∧
    (userFind runE2E1.1 1).map (·.totalXP) = some 50 ∧
    runE2E2.2.2.isOk = true ∧
    skillStatusIn runE2E2.1 10 = some .AVAILABLE ∧
    skillStatusIn runE2E2.1 20 = some .LOCKED ∧
    (userFind runE2E2.1 1).map (·.totalXP) = some 100 ∧
    ¬ (1, "first-skill") ∈ runE2E2.1.userAchievements := by decide

-- ===========================================================================
-- C4 counterexample: the skill-curve round trip fails past maxLevel.
-- ===========================================================================

/-- C4 counterexample: the claim asserts the round trip for *every*
level L ≥ 1, but the skill calculator caps at `maxLevel`: feeding the
cumulative XP for level 3 into a skill capped at maxLevel 2 returns 2,
not 3. -/
theorem skill_roundtrip_fails_beyond_maxLevel :
    calculateSkillLevel (totalXpForSkillLevel 3) 2 = 2 ∧
    calculateSkillLevel (totalXpForSkillLevel 3) 2 ≠ 3 := by decide

-- ===========================================================================
-- C8 counterexample: a negative suggestedXP passes the evaluation
-- schema and decreases both the user's and the skill's XP.
-- ===========================================================================

/-- C8 counterexample: the evaluation schema (`TaskEvaluationSchema`)
bounds `qualityScore` to 1..10 but leaves `suggestedXP` unconstrained,
so an evaluation with `suggestedXP = -50` is a possible collaborator
result; the completion then succeeds and drops the user's totalXP from
0 to -50 and the skill's currentXP from 0 to -50. -/
theorem negative_evaluation_decreases_xp :
    (1 ≤ evalNeg.qualityScore ∧ evalNeg.qualityScore ≤ 10) ∧
    runNegEval.2.2.isOk = true ∧
    (userFind dbC2 1).map (·.totalXP) = some 0 ∧
    (userFind runNegEval.1 1).map (·.totalXP) = some (-50) ∧
    (skillFind runNegEval.1 10).map (·.currentXP) = some (-50) := by decide

-- ===========================================================================
-- C5.  The streak tracker's four-case policy.
-- ===========================================================================

/-- C5: `calculateStreak` satisfies the four-case policy: no prior
activity starts a streak of 1 with longest max(1, longest); the same
calendar day changes nothing; a new calendar day within 48 hours
increments the streak and raises longest to max(newStreak, longest); a
gap beyond 48 hours resets to 1, marks the streak broken and leaves
longest unchanged. -/
theorem calculateStreak_policy :
    (∀ (cs ls : Nat) (now : Int),
       calculateStreak none cs ls now =
         { currentStreak := 1, longestStreak := max 1 ls, streakBroken := false }) ∧
    (∀ (last : Int) (cs ls : Nat) (now : Int), dayIndex last = dayIndex now →
       calculateStreak (some last) cs ls now =
         { currentStreak := cs, longestStreak := ls, streakBroken := false }) ∧
    (∀ (last : Int) (cs ls : Nat) (now : Int),
       dayIndex last ≠ dayIndex now → now - last ≤ 2880 →
       calculateStreak (some last) cs ls now =
         { currentStreak := cs + 1, longestStreak := max (cs + 1) ls,
           streakBroken := false }) ∧
    (∀ (last : Int) (cs ls : Nat) (now : Int),
       dayIndex last ≠ dayIndex now → 2880 < now - last →
       calculateStreak (some last) cs ls now =
         { currentStreak := 1, longestStreak := ls, streakBroken := true }) := by
  refine ⟨fun cs ls now => rfl, ?_, ?_, ?_⟩
  · intro last cs ls now h
    simp [calculateStreak, isNewDay, h]
  · intro last cs ls now h h2
    simp [calculateStreak, isNewDay, doesContinueStreak, h, h2]
  · intro last cs ls now h h2
    simp [calculateStreak, isNewDay, doesContinueStreak, h, not_le.mpr h2]

/-- C5 witness: the four cases at concrete times — including the spec's
own example, last activity day 1 10:00 (minute 2040) and `now` day 2
09:00 (minute 3420, a 23-hour gap on a new calendar day), which
increments the streak without breaking it; and `now` day 4 10:00
(minute 6360, >48h), which resets it as broken. -/
theorem calculateStreak_policy_witness :
    calculateStreak none 0 5 100 =
      { currentStreak := 1, longestStreak := 5, streakBroken := false } ∧
    calculateStreak (some 2040) 3 5 2100 =
      { currentStreak := 3, longestStreak := 5, streakBroken := false } ∧
    calculateStreak (some 2040) 3 5 3420 =
      { currentStreak := 4, longestStreak := 5, streakBroken := false } ∧
    calculateStreak (some 2040) 3 5 6360 =
      { currentStreak := 1, longestStreak := 5, streakBroken := true } :=
  ⟨calculateStreak_policy.1 0 5 100,
   calculateStreak_policy.2.1 2040 3 5 2100 (by decide),
   calculateStreak_policy.2.2.1 2040 3 5 3420 (by decide) (by decide),
   calculateStreak_policy.2.2.2 2040 3 5 6360 (by decide) (by decide)⟩

-- ===========================================================================
-- C6.  The already-completed guard fails distinctly and mutates
-- nothing.
-- ===========================================================================

/-- C6: when the fetched task already has `completedAt` set (and it
exists and is owned by the caller, so the earlier guards do not fire
first), `completeTask` returns the distinct `alreadyCompleted` error,
makes no call to the evaluation collaborator, and returns the store
unchanged — no XP change, no task/skill/user mutation. -/
theorem alreadyCompleted_guard_no_mutation
    (db : DB) (uid tid : Nat) (submission notes : Option String)
    (evalOutcome : Option TaskEvaluation) (now : Int)
    (task : Task) (skill : Skill) (tree : Tree)
    (htask : taskFind db tid = some task)
    (hskill : skillFind db task.skillId = some skill)
    (htree : treeFind db skill.treeId = some tree)
    (howner : tree.userId = uid)
    (hdone : task.completedAt ≠ none) :
    completeTask db uid tid submission notes evalOutcome now =
      (db, [], .error .alreadyCompleted) := by
  unfold completeTask
  simp only [htask, hskill, htree]
  simp [howner, hdone]

/-- C6 witness: a store whose task 11 is already completed. -/
def taskDone : Task := { mkTask 11 10 50 with completed := true, completedAt := some 999 }

/-- Scenario store with task 11 already completed. -/
def dbDone : DB := { dbC2 with tasks := [taskDone, mkTask 12 10 50, mkTask 21 20 100] }

/-- C6 witness: re-completing the completed task 11 of `dbDone` fails
with `alreadyCompleted` and leaves the store untouched. -/
theorem alreadyCompleted_guard_no_mutation_witness :
    completeTask dbDone 1 11 none none none 2040 =
      (dbDone, [], .error .alreadyCompleted) :=
  alreadyCompleted_guard_no_mutation dbDone 1 11 none none none 2040
    taskDone skillA treeW (by decide) (by decide) (by decide) (by decide) (by decide)

-- ===========================================================================
-- Leveling calculator lemmas
-- ===========================================================================

lemma xpForUserLevel_pos (l : Nat) (h : 2 ≤ l) : 1 ≤ xpForUserLevel l := by
  unfold xpForUserLevel
  rw [if_neg (by omega)]
  have h2 : (1 : Nat) ≤ 100 * 3 ^ (l - 1) / 2 ^ (l - 1) := by
    rw [Nat.le_div_iff_mul_le (Nat.pos_pow_of_pos _ (by norm_num))]
    calc 1 * 2 ^ (l - 1) = 2 ^ (l - 1) := one_mul _
      _ ≤ 3 ^ (l - 1) := Nat.pow_le_pow_left (by norm_num) _
      _ ≤ 100 * 3 ^ (l - 1) := Nat.le_mul_of_pos_left _ (by norm_num)
  exact_mod_cast h2

lemma totalXpForUserLevel_succ (l : Nat) (h : 1 ≤ l) :
    totalXpForUserLevel (l + 1) = totalXpForUserLevel l + xpForUserLevel (l + 1) := by
  match l, h with
  | (k + 1), _ => rfl

lemma totalXpForUserLevel_lt_succ (l : Nat) (h : 1 ≤ l) :
    totalXpForUserLevel l < totalXpForUserLevel (l + 1) := by
  rw [totalXpForUserLevel_succ l h]
  have := xpForUserLevel_pos (l + 1) (by omega)
  omega

lemma totalXpForUserLevel_mono (a b : Nat) (ha : 1 ≤ a) (hab : a ≤ b) :
    totalXpForUserLevel a ≤ totalXpForUserLevel b := by
  induction b with
  | zero => omega
  | succ n ih =>
    rcases Nat.eq_or_lt_of_le hab with heq | hlt
    · rw [heq]
    · have h1n : 1 ≤ n := by omega
      calc totalXpForUserLevel a ≤ totalXpForUserLevel n := ih (by omega)
        _ ≤ totalXpForUserLevel (n + 1) := le_of_lt (totalXpForUserLevel_lt_succ n h1n)

lemma calculateUserLevelAux_exact (L : Nat) (hL : 1 ≤ L) :
    ∀ (fuel level : Nat), 1 ≤ level → level ≤ L → L - level ≤ fuel →
    calculateUserLevelAux (totalXpForUserLevel L) fuel level (totalXpForUserLevel level) = L := by
  intro fuel
  induction fuel with
  | zero =>
    intro level h1 h2 h3
    have hEq : level = L := by omega
    subst hEq
    rfl
  | succ n ih =>
    intro level h1 hle hfuel
    unfold calculateUserLevelAux
    by_cases hcase : level = L
    · subst hcase
      rw [if_neg]
      have := xpForUserLevel_pos (level + 1) (by omega)
      omega
    · have hlt : level < L := lt_of_le_of_ne hle hcase
      rw [if_pos, ← totalXpForUserLevel_succ level h1]
      · exact ih (level + 1) (by omega) (by omega) (by omega)
      · rw [← totalXpForUserLevel_succ level h1]
        exact totalXpForUserLevel_mono (level + 1) L (by omega) (by omega)

lemma totalXpForUserLevel_ge (L : Nat) (h : 1 ≤ L) :
    (L : Int) - 1 ≤ totalXpForUserLevel L := by
  induction L with
  | zero => omega
  | succ n ih =>
    by_cases hn : n = 0
    · subst hn; simp [totalXpForUserLevel]
    · have h1n : 1 ≤ n := by omega
      rw [totalXpForUserLevel_succ n h1n]
      have hx := xpForUserLevel_pos (n + 1) (by omega)
      have := ih h1n
      push_cast
      omega

lemma calculateUserLevel_roundtrip (L : Nat) (hL : 1 ≤ L) :
    calculateUserLevel (totalXpForUserLevel L) = L := by
  have hfuel : L - 1 ≤ (totalXpForUserLevel L).toNat + 1 := by
    have := totalXpForUserLevel_ge L hL
    omega
  exact calculateUserLevelAux_exact L hL ((totalXpForUserLevel L).toNat + 1) 1
    le_rfl hL hfuel

lemma xpForSkillLevel_pos (l : Nat) (h : 2 ≤ l) : 1 ≤ xpForSkillLevel l := by
  unfold xpForSkillLevel
  rw [if_neg (by omega)]
  have h2 : (1 : Nat) ≤ 50 * 13 ^ (l - 1) / 10 ^ (l - 1) := by
    rw [Nat.le_div_iff_mul_le (Nat.pos_pow_of_pos _ (by norm_num))]
    calc 1 * 10 ^ (l - 1) = 10 ^ (l - 1) := one_mul _
      _ ≤ 13 ^ (l - 1) := Nat.pow_le_pow_left (by norm_num) _
      _ ≤ 50 * 13 ^ (l - 1) := Nat.le_mul_of_pos_left _ (by norm_num)
  exact_mod_cast h2

lemma totalXpForSkillLevel_succ (l : Nat) (h : 1 ≤ l) :
    totalXpForSkillLevel (l + 1) = totalXpForSkillLevel l + xpForSkillLevel (l + 1) := by
  match l, h with
  | (k + 1), _ => rfl

lemma totalXpForSkillLevel_lt_succ (l : Nat) (h : 1 ≤ l) :
    totalXpForSkillLevel l < totalXpForSkillLevel (l + 1) := by
  rw [totalXpForSkillLevel_succ l h]
  have := xpForSkillLevel_pos (l + 1) (by omega)
  omega

lemma totalXpForSkillLevel_mono (a b : Nat) (ha : 1 ≤ a) (hab : a ≤ b) :
    totalXpForSkillLevel a ≤ totalXpForSkillLevel b := by
  induction b with
  | zero => omega
  | succ n ih =>
    rcases Nat.eq_or_lt_of_le hab with heq | hlt
    · rw [heq]
    · have h1n : 1 ≤ n := by omega
      calc totalXpForSkillLevel a ≤ totalXpForSkillLevel n := ih (by omega)
        _ ≤ totalXpForSkillLevel (n + 1) := le_of_lt (totalXpForSkillLevel_lt_succ n h1n)

lemma calculateSkillLevelAux_exact (L maxLevel : Nat) (hL : 1 ≤ L) (hcap : L ≤ maxLevel) :
    ∀ (fuel level : Nat), 1 ≤ level → level ≤ L → L - level ≤ fuel →
    calculateSkillLevelAux (totalXpForSkillLevel L) maxLevel fuel level
      (totalXpForSkillLevel level) = L := by
  intro fuel
  induction fuel with
  | zero =>
    intro level h1 h2 h3
    have hEq : level = L := by omega
    subst hEq
    rfl
  | succ n ih =>
    intro level h1 hle hfuel
    unfold calculateSkillLevelAux
    by_cases hcase : level = L
    · subst hcase
      rw [if_neg]
      intro hcontra
      have := xpForSkillLevel_pos (level + 1) (by omega)
      omega
    · have hlt : level < L := lt_of_le_of_ne hle hcase
      rw [if_pos, ← totalXpForSkillLevel_succ level h1]
      · exact ih (level + 1) (by omega) (by omega) (by omega)
      · refine ⟨by omega, ?_⟩
        rw [← totalXpForSkillLevel_succ level h1]
        exact totalXpForSkillLevel_mono (level + 1) L (by omega) (by omega)

lemma calculateSkillLevel_roundtrip (L maxLevel : Nat) (hL : 1 ≤ L) (hcap : L ≤ maxLevel) :
    calculateSkillLevel (totalXpForSkillLevel L) maxLevel = L :=
  calculateSkillLevelAux_exact L maxLevel hL hcap maxLevel 1 le_rfl hL (by omega)

lemma calculateSkillLevelAux_le (xp : Int) (maxLevel : Nat) :
    ∀ (fuel level : Nat) (xpSum : Int),
    calculateSkillLevelAux xp maxLevel fuel level xpSum ≤ max level maxLevel := by
  intro fuel
  induction fuel with
  | zero => intro level xpSum; exact le_max_left _ _
  | succ n ih =>
    intro level xpSum
    unfold calculateSkillLevelAux
    split
    · next h =>
      have := ih (level + 1) (xpSum + xpForSkillLevel (level + 1))
      have hlev : level < maxLevel := h.1
      omega
    · exact le_max_left _ _

lemma calculateSkillLevel_le (xp : Int) (maxLevel : Nat) (h : 1 ≤ maxLevel) :
    calculateSkillLevel xp maxLevel ≤ maxLevel := by
  have := calculateSkillLevelAux_le xp maxLevel maxLevel 1 0
  unfold calculateSkillLevel
  omega

-- ===========================================================================
-- C4 (amended).  Round trips and the cap, within the skill cap's range.
-- ===========================================================================

/-- C4 (amended): for every L ≥ 1 the user-curve round trip returns
exactly L; the skill-curve round trip returns exactly L whenever
L ≤ maxLevel (the calculator caps at `maxLevel`, so the unrestricted
round trip of the original claim fails past the cap); and for every XP
value the skill level never exceeds a positive `maxLevel`.  The user
calculator has no cap in the code, so no user-cap clause is provable. -/
theorem level_roundtrip_and_cap_amended :
    (∀ L : Nat, 1 ≤ L → calculateUserLevel (totalXpForUserLevel L) = L) ∧
    (∀ L maxLevel : Nat, 1 ≤ L → L ≤ maxLevel →
       calculateSkillLevel (totalXpForSkillLevel L) maxLevel = L) ∧
    (∀ (xp : Int) (maxLevel : Nat), 1 ≤ maxLevel →
       calculateSkillLevel xp maxLevel ≤ maxLevel) :=
  ⟨calculateUserLevel_roundtrip,
   fun L maxLevel hL hcap => calculateSkillLevel_roundtrip L maxLevel hL hcap,
   fun xp maxLevel h => calculateSkillLevel_le xp maxLevel h⟩

/-- C4 witness: the three amended statements at concrete inputs. -/
theorem level_roundtrip_and_cap_amended_witness :
    calculateUserLevel (totalXpForUserLevel 5) = 5 ∧
    calculateSkillLevel (totalXpForSkillLevel 4) 10 = 4 ∧
    calculateSkillLevel 99999 7 ≤ 7 :=
  ⟨level_roundtrip_and_cap_amended.1 5 (by decide),
   level_roundtrip_and_cap_amended.2.1 4 10 (by decide) (by decide),
   level_roundtrip_and_cap_amended.2.2 99999 7 (by decide)⟩

-- ===========================================================================
-- Store-manipulation lemmas
-- ===========================================================================

lemma foldl_preserves {α β : Type} (P : α → Prop) (step : α → β → α) :
    ∀ (l : List β) (a : α), P a → (∀ acc x, P acc → P (step acc x)) →
    P (l.foldl step a) := by
  intro l
  induction l with
  | nil => intro a ha _; exact ha
  | cons x xs ih => intro a ha hstep; exact ih _ (hstep a x ha) hstep

lemma find?_map_of_pred_preserved {α : Type} (p : α → Bool) (g : α → α)
    (hg : ∀ s, p (g s) = p s) (l : List α) :
    (l.map g).find? p = (l.find? p).map g := by
  induction l with
  | nil => rfl
  | cons x xs ih =>
    simp only [List.map_cons, List.find?]
    rw [hg x]
    cases p x <;> simp [ih]

lemma skillFind_updateSkillRow (db : DB) (i : Nat) (f : Skill → Skill)
    (hf : ∀ s, (f s).id = s.id) (j : Nat) :
    skillFind (updateSkillRow db i f) j =
      (skillFind db j).map (fun s => if s.id = i then f s else s) := by
  unfold skillFind updateSkillRow
  exact find?_map_of_pred_preserved _ _
    (fun s => by by_cases h : s.id = i <;> simp [h, hf s]) _

lemma taskFind_updateTaskRow (db : DB) (i : Nat) (f : Task → Task)
    (hf : ∀ t, (f t).id = t.id) (j : Nat) :
    taskFind (updateTaskRow db i f) j =
      (taskFind db j).map (fun t => if t.id = i then f t else t) := by
  unfold taskFind updateTaskRow
  exact find?_map_of_pred_preserved _ _
    (fun t => by by_cases h : t.id = i <;> simp [h, hf t]) _

lemma userFind_updateUserRow (db : DB) (i : Nat) (f : User → User)
    (hf : ∀ u, (f u).id = u.id) (j : Nat) :
    userFind (updateUserRow db i f) j =
      (userFind db j).map (fun u => if u.id = i then f u else u) := by
  unfold userFind updateUserRow
  exact find?_map_of_pred_preserved _ _
    (fun u => by by_cases h : u.id = i <;> simp [h, hf u]) _

lemma skillFind_id (db : DB) (j : Nat) (s : Skill) (h : skillFind db j = some s) :
    s.id = j := by
  have := List.find?_some h
  exact of_decide_eq_true this

lemma skillFind_mem (db : DB) (j : Nat) (s : Skill) (h : skillFind db j = some s) :
    s ∈ db.skills :=
  List.mem_of_find?_eq_some h

lemma taskFind_id (db : DB) (j : Nat) (t : Task) (h : taskFind db j = some t) :
    t.id = j := by
  have := List.find?_some h
  exact of_decide_eq_true this

lemma taskFind_mem (db : DB) (j : Nat) (t : Task) (h : taskFind db j = some t) :
    t ∈ db.tasks :=
  List.mem_of_find?_eq_some h

lemma userFind_id (db : DB) (j : Nat) (u : User) (h : userFind db j = some u) :
    u.id = j := by
  have := List.find?_some h
  exact of_decide_eq_true this

-- ===========================================================================
-- C9 infrastructure: the only statuses the engine writes
-- ===========================================================================

/-- Relation between two stores: every skill's status is either
unchanged or one of the two statuses the engine writes (AVAILABLE via
the unlock cascade, COMPLETED via skill completion). -/
def engineStatus (db db' : DB) : Prop :=
  ∀ j, skillStatusIn db' j = skillStatusIn db j ∨
       skillStatusIn db' j = some .AVAILABLE ∨
       skillStatusIn db' j = some .COMPLETED

lemma engineStatus_refl (db : DB) : engineStatus db db := fun _ => Or.inl rfl

lemma engineStatus_trans {a b c : DB} (hab : engineStatus a b) (hbc : engineStatus b c) :
    engineStatus a c := by
  intro j
  rcases hbc j with h | h | h
  · rw [h]; exact hab j
  · exact Or.inr (Or.inl h)
  · exact Or.inr (Or.inr h)

lemma engineStatus_of_skillsEq {db db' : DB} (h : db'.skills = db.skills) :
    engineStatus db db' := by
  intro j
  left
  unfold skillStatusIn skillFind
  rw [h]

lemma engineStatus_step_skillsEq {db0 db db' : DB} (h : engineStatus db0 db)
    (heq : db'.skills = db.skills) : engineStatus db0 db' :=
  engineStatus_trans h (engineStatus_of_skillsEq heq)

lemma engineStatus_updateSkillRow {db : DB} {i : Nat} {f : Skill → Skill}
    (hf : ∀ s, (f s).id = s.id)
    (hstat : ∀ s, skillFind db i = some s →
      (f s).status = s.status ∨ (f s).status = .AVAILABLE ∨ (f s).status = .COMPLETED) :
    engineStatus db (updateSkillRow db i f) := by
  intro j
  unfold skillStatusIn
  rw [skillFind_updateSkillRow db i f hf j]
  cases h : skillFind db j with
  | none => exact Or.inl rfl
  | some s =>
    simp only [Option.map_some']
    by_cases hsi : s.id = i
    · have hji : j = i := by
        have := skillFind_id db j s h
        omega
      subst hji
      rcases hstat s h with h2 | h2 | h2
      · left; simp [hsi, h2]
      · right; left; simp [hsi, h2]
      · right; right; simp [hsi, h2]
    · left; simp [hsi]

lemma engineStatus_unlockStepSingle {db0 : DB} (acc : DB × List Nat × List Event)
    (d : Skill) (h : engineStatus db0 acc.1) :
    engineStatus db0 (unlockStepSingle acc d).1 := by
  unfold unlockStepSingle
  dsimp only
  split
  · exact h
  · split
    · dsimp only
      refine engineStatus_trans h (engineStatus_updateSkillRow (fun s => rfl) ?_)
      intro s _
      right; left; rfl
    · exact h

lemma engineStatus_unlockDependentsSingle {db0 db : DB} (deps : List Skill)
    (h : engineStatus db0 db) :
    engineStatus db0 (unlockDependentsSingle db deps).1 := by
  unfold unlockDependentsSingle
  exact foldl_preserves (fun acc => engineStatus db0 acc.1) _ deps (db, [], []) h
    (fun acc x hacc => engineStatus_unlockStepSingle acc x hacc)

lemma grantStep_skills (uid : Nat) (acc : DB × List String × List Event) (aid : String) :
    (grantStep uid acc aid).1.skills = acc.1.skills := by
  unfold grantStep
  split
  · rfl
  · dsimp only
    split <;> rfl

lemma grantAchievements_skills (db : DB) (uid : Nat) (data : AchievementCheckData) :
    (grantAchievements db uid data).1.skills = db.skills := by
  unfold grantAchievements
  exact foldl_preserves (fun acc => acc.1.skills = db.skills) _ _ (db, [], []) rfl
    (fun acc x hacc => (grantStep_skills uid acc x).trans hacc)

lemma engineStatus_grant {db0 db : DB} (uid : Nat) (data : AchievementCheckData)
    (h : engineStatus db0 db) :
    engineStatus db0 (grantAchievements db uid data).1 :=
  engineStatus_step_skillsEq h (grantAchievements_skills db uid data)

lemma engineStatus_updateSkillRow_fromBase {db0 db : DB} {i : Nat} {f : Skill → Skill}
    (hacc : engineStatus db0 db)
    (hf : ∀ s, (f s).id = s.id)
    (hstat : ∀ s, skillFind db i = some s →
      (∃ s0, skillFind db0 i = some s0 ∧ (f s).status = s0.status) ∨
      (f s).status = .AVAILABLE ∨ (f s).status = .COMPLETED) :
    engineStatus db0 (updateSkillRow db i f) := by
  intro j
  unfold skillStatusIn
  rw [skillFind_updateSkillRow db i f hf j]
  cases h : skillFind db j with
  | none =>
    have hj := hacc j
    unfold skillStatusIn at hj
    rw [h] at hj
    simpa using hj
  | some s =>
    by_cases hsi : s.id = i
    · have hji : j = i := by
        have := skillFind_id db j s h
        omega
      subst hji
      rcases hstat s h with ⟨s0, hs0, heq⟩ | h2 | h2
      · left
        rw [hs0]
        simp [hsi, heq]
      · right; left; simp [hsi, h2]
      · right; right; simp [hsi, h2]
    · have hj := hacc j
      unfold skillStatusIn at hj
      rw [h] at hj
      simpa [hsi] using hj

lemma engineStatus_bulkUnlockStep {db0 : DB} (skillId : Nat) (now : Int) (dbF : DB)
    (acc : DB × List Event) (d : Skill) (h : engineStatus db0 acc.1) :
    engineStatus db0 (bulkUnlockStep skillId now dbF acc d).1 := by
  unfold bulkUnlockStep
  dsimp only
  split
  · dsimp only
    refine engineStatus_trans h (engineStatus_updateSkillRow (fun s => rfl) ?_)
    intro s _
    right; left; rfl
  · exact h

lemma engineStatus_bulkCascade {db0 db : DB} (skillId : Nat) (now : Int)
    (h : engineStatus db0 db) : engineStatus db0 (bulkCascade db skillId now).1 := by
  unfold bulkCascade
  exact foldl_preserves (fun acc2 => engineStatus db0 acc2.1) _ _ (db, []) h
    (fun a x ha => engineStatus_bulkUnlockStep skillId now _ a x ha)

lemma engineStatus_bulkSkillStep {db0 : DB} (now : Int) (acc : DB × Nat × List Event)
    (entry : Nat × SkillUpdateEntry) (h : engineStatus db0 acc.1) :
    engineStatus db0 (bulkSkillStep db0 now acc entry).1 := by
  unfold bulkSkillStep
  dsimp only
  split
  · exact h
  next skill hmatch =>
    split
    · -- allCompleted: the update writes COMPLETED
      split
      · refine engineStatus_bulkCascade _ _ ?_
        refine engineStatus_updateSkillRow_fromBase h (fun s => rfl) ?_
        intro s _
        right; right; rfl
      · refine engineStatus_updateSkillRow_fromBase h (fun s => rfl) ?_
        intro s _
        right; right; rfl
    · -- not allCompleted: the update re-writes the snapshot status
      split
      · refine engineStatus_bulkCascade _ _ ?_
        refine engineStatus_updateSkillRow_fromBase h (fun s => rfl) ?_
        intro s _
        left
        exact ⟨skill, hmatch, rfl⟩
      · refine engineStatus_updateSkillRow_fromBase h (fun s => rfl) ?_
        intro s _
        left
        exact ⟨skill, hmatch, rfl⟩

lemma engineStatus_updateUserRow_step {db0 db : DB} (i : Nat) (f : User → User)
    (h : engineStatus db0 db) : engineStatus db0 (updateUserRow db i f) :=
  engineStatus_trans h (engineStatus_of_skillsEq rfl)

lemma engineStatus_createActivity_step {db0 db : DB} (a : Activity)
    (h : engineStatus db0 db) : engineStatus db0 (createActivity db a) :=
  engineStatus_trans h (engineStatus_of_skillsEq rfl)

lemma engineStatus_ite_createActivity_step {db0 db : DB} (c : Prop) [Decidable c]
    (a : Activity) (h : engineStatus db0 db) :
    engineStatus db0 (if c then createActivity db a else db) := by
  split
  · exact engineStatus_createActivity_step a h
  · exact h

lemma engineStatus_singleSkillWrite {db0 : DB} (tid : Nat) (g : Task → Task)
    (skill : Skill) (hsk : skillFind db0 skill.id = some skill)
    (st : SkillStatus) (hst : st = skill.status ∨ st = .COMPLETED)
    (xp : Int) (lvl : Nat) (cAt : Option Int) (xtn : Int) :
    engineStatus db0 (updateSkillRow (updateTaskRow db0 tid g) skill.id (fun s =>
      { s with currentXP := xp, currentLevel := lvl, status := st,
               completedAt := cAt, xpToNextLevel := xtn })) := by
  refine engineStatus_trans (engineStatus_of_skillsEq rfl)
    (engineStatus_updateSkillRow (fun s => rfl) ?_)
  intro s hs
  have hs2 : skillFind db0 skill.id = some s := hs
  rw [hsk] at hs2
  cases Option.some.inj hs2
  rcases hst with h | h
  · exact Or.inl h
  · exact Or.inr (Or.inr h)

-- ===========================================================================
-- C9.  The engine never writes MASTERED.
-- ===========================================================================

/-- C9: neither `completeTask` nor `completeTasksBulk` (including their
unlock cascades) ever writes the MASTERED status: in the resulting
store, every skill's status is its pre-existing status, AVAILABLE, or
COMPLETED — on every path, error paths included. -/
theorem engine_never_writes_mastered :
    (∀ (db : DB) (uid tid : Nat) (submission notes : Option String)
       (evalOutcome : Option TaskEvaluation) (now : Int),
       engineStatus db (completeTask db uid tid submission notes evalOutcome now).1) ∧
    (∀ (db : DB) (uid : Nat) (taskIds : List Nat) (now : Int),
       engineStatus db (completeTasksBulk db uid taskIds now).1) := by
  constructor
  · intro db uid tid submission notes evalOutcome now
    unfold completeTask
    split
    · exact engineStatus_refl db
    next task htask =>
      split
      · exact engineStatus_refl db
      next skill hskill =>
        split
        · exact engineStatus_refl db
        next tree htree =>
          split
          · exact engineStatus_refl db
          split
          · exact engineStatus_refl db
          dsimp only
          have hskid : skill.id = task.skillId := skillFind_id db task.skillId skill hskill
          have hskill2 : skillFind db skill.id = some skill := by rw [hskid]; exact hskill
          split
          · -- userNotFound: the mutated store up to the unlock cascade
            split
            · apply engineStatus_unlockDependentsSingle
              apply engineStatus_singleSkillWrite _ _ skill hskill2
              first
                | (left; rfl)
                | (right; rfl)
                | (split <;> first | (left; rfl) | (right; rfl))
            · split
              · apply engineStatus_unlockDependentsSingle
                apply engineStatus_singleSkillWrite _ _ skill hskill2
                first
                  | (left; rfl)
                  | (right; rfl)
                  | (split <;> first | (left; rfl) | (right; rfl))
              · dsimp only
                apply engineStatus_singleSkillWrite _ _ skill hskill2
                first
                  | (left; rfl)
                  | (right; rfl)
                  | (split <;> first | (left; rfl) | (right; rfl))
          · -- success: compose through activities, user update and grants
            apply engineStatus_grant
            refine engineStatus_updateUserRow_step _ _ ?_
            refine engineStatus_ite_createActivity_step _ _ ?_
            refine engineStatus_ite_createActivity_step _ _ ?_
            refine engineStatus_createActivity_step _ ?_
            split
            · apply engineStatus_unlockDependentsSingle
              apply engineStatus_singleSkillWrite _ _ skill hskill2
              first
                | (left; rfl)
                | (right; rfl)
                | (split <;> first | (left; rfl) | (right; rfl))
            · split
              · apply engineStatus_unlockDependentsSingle
                apply engineStatus_singleSkillWrite _ _ skill hskill2
                first
                  | (left; rfl)
                  | (right; rfl)
                  | (split <;> first | (left; rfl) | (right; rfl))
              · dsimp only
                apply engineStatus_singleSkillWrite _ _ skill hskill2
                first
                  | (left; rfl)
                  | (right; rfl)
                  | (split <;> first | (left; rfl) | (right; rfl))
  · intro db uid taskIds now
    unfold completeTasksBulk
    split
    · exact engineStatus_refl db
    dsimp only
    split
    · exact engineStatus_refl db
    split
    · exact engineStatus_refl db
    split
    · exact engineStatus_refl db
    apply engineStatus_grant
    refine engineStatus_step_skillsEq ?_ rfl
    refine engineStatus_step_skillsEq ?_ rfl
    refine foldl_preserves (fun acc => engineStatus db acc.1) _ _ _ ?_
      (fun a x ha => engineStatus_bulkSkillStep now a x ha)
    exact engineStatus_of_skillsEq rfl

-- ===========================================================================
-- C3 infrastructure: the unlock resolvers
-- ===========================================================================

/-- Whether every prerequisite row of `d` found in `db` is COMPLETED or
MASTERED — the resolvers' unlock criterion. -/
def prereqsCompleted (db : DB) (d : Skill) : Bool :=
  (d.prerequisiteIds.filterMap (skillFind db)).all
    (fun p => p.status = .COMPLETED ∨ p.status = .MASTERED)

lemma skillFind_updateSkillRow_ne (db : DB) (i : Nat) (f : Skill → Skill)
    (hf : ∀ s, (f s).id = s.id) (j : Nat) (hne : j ≠ i) :
    skillFind (updateSkillRow db i f) j = skillFind db j := by
  rw [skillFind_updateSkillRow db i f hf j]
  cases h : skillFind db j with
  | none => rfl
  | some s =>
    have := skillFind_id db j s h
    simp only [Option.map_some']
    rw [if_neg (by omega)]

lemma skillFind_updateSkillRow_self (db : DB) (i : Nat) (f : Skill → Skill)
    (hf : ∀ s, (f s).id = s.id) (s : Skill) (h : skillFind db i = some s) :
    skillFind (updateSkillRow db i f) i = some (f s) := by
  rw [skillFind_updateSkillRow db i f hf i, h]
  have := skillFind_id db i s h
  simp [this]

lemma foldl_preserves_mem {α β : Type} (P : α → Prop) (step : α → β → α) :
    ∀ (l : List β) (a : α), P a → (∀ acc x, x ∈ l → P acc → P (step acc x)) →
    P (l.foldl step a) := by
  intro l
  induction l with
  | nil => intro a ha _; exact ha
  | cons x xs ih =>
    intro a ha hstep
    exact ih _ (hstep a x (List.mem_cons_self x xs) ha)
      (fun acc y hy => hstep acc y (List.mem_cons_of_mem x hy))

lemma unlockStepSingle_find_ne (acc : DB × List Nat × List Event) (e : Skill)
    (j : Nat) (hne : e.id ≠ j) :
    skillFind (unlockStepSingle acc e).1 j = skillFind acc.1 j := by
  unfold unlockStepSingle
  dsimp only
  split
  · rfl
  · split
    · exact skillFind_updateSkillRow_ne acc.1 e.id
        (fun s => { s with status := SkillStatus.AVAILABLE }) (fun s => rfl) j
        (Ne.symm hne)
    · rfl

lemma unlockFold_find_ne (l : List Skill) :
    ∀ (acc : DB × List Nat × List Event) (j : Nat), (∀ e ∈ l, e.id ≠ j) →
    skillFind (l.foldl unlockStepSingle acc).1 j = skillFind acc.1 j := by
  induction l with
  | nil => intro acc j _; rfl
  | cons e l ih =>
    intro acc j h
    rw [List.foldl_cons, ih _ j (fun x hx => h x (List.mem_cons_of_mem e hx)),
      unlockStepSingle_find_ne acc e j (h e (List.mem_cons_self e l))]

/-- Invariant of the single route's cascade: relative to the store `db`
it started from, each row is unchanged or is a previously LOCKED row
now flipped to AVAILABLE. -/
def onlyUnlocked (db cur : DB) : Prop :=
  ∀ j, skillFind cur j = skillFind db j ∨
       ∃ row, skillFind db j = some row ∧ row.status = .LOCKED ∧
              skillFind cur j = some { row with status := SkillStatus.AVAILABLE }

lemma onlyUnlocked_refl (db : DB) : onlyUnlocked db db := fun _ => Or.inl rfl

lemma onlyUnlocked_unlockStepSingle {db : DB} (acc : DB × List Nat × List Event)
    (e : Skill) (hcons : skillFind db e.id = some e)
    (h : onlyUnlocked db acc.1) : onlyUnlocked db (unlockStepSingle acc e).1 := by
  unfold unlockStepSingle
  dsimp only
  split
  · exact h
  next depRow hdep =>
    split
    · next hcond =>
        intro j
        by_cases hj : j = e.id
        · subst hj
          right
          refine ⟨e, hcons, hcond.2, ?_⟩
          rw [skillFind_updateSkillRow_self acc.1 e.id
            (fun s => { s with status := SkillStatus.AVAILABLE }) (fun s => rfl) depRow hdep]
          rcases h e.id with heq | ⟨row, hdb, hlocked, hcur⟩
          · have hde : depRow = e := by
              rw [heq, hcons] at hdep
              exact (Option.some.inj hdep).symm
            rw [hde]
          · have hde : depRow = { row with status := SkillStatus.AVAILABLE } := by
              rw [hcur] at hdep
              exact (Option.some.inj hdep).symm
            have hre : row = e := by
              rw [hdb] at hcons
              exact Option.some.inj hcons
            rw [hde, hre]
        · rw [skillFind_updateSkillRow_ne acc.1 e.id
            (fun s => { s with status := SkillStatus.AVAILABLE }) (fun s => rfl) j hj]
          exact h j
    · exact h

lemma all_congr_mem {α : Type} {l : List α} {p q : α → Bool}
    (h : ∀ x ∈ l, p x = q x) : l.all p = l.all q := by
  induction l with
  | nil => rfl
  | cons x xs ih =>
    simp only [List.all_cons]
    rw [h x (List.mem_cons_self x xs), ih (fun y hy => h y (List.mem_cons_of_mem x hy))]

lemma onlyUnlocked_doneCheck {db cur : DB} (h : onlyUnlocked db cur) (ids : List Nat) :
    (ids.filterMap (skillFind cur)).all
        (fun p => p.status = .COMPLETED ∨ p.status = .MASTERED) =
      (ids.filterMap (skillFind db)).all
        (fun p => p.status = .COMPLETED ∨ p.status = .MASTERED) := by
  induction ids with
  | nil => rfl
  | cons i ids ih =>
    simp only [List.filterMap_cons]
    rcases h i with heq | ⟨row, hdb, hlocked, hcur⟩
    · rw [heq]
      cases skillFind db i with
      | none => exact ih
      | some s => simp only [List.all_cons, ih]
    · rw [hdb, hcur]
      simp only [List.all_cons, ih, hlocked]
      simp

lemma unlockStepSingle_self_notLocked (acc : DB × List Nat × List Event) (d : Skill)
    (hrow : skillFind acc.1 d.id = some d) (hd : d.status ≠ .LOCKED) :
    unlockStepSingle acc d = acc := by
  unfold unlockStepSingle
  dsimp only
  rw [hrow]
  dsimp only
  rw [if_neg (fun hc => hd hc.2)]

lemma unlockStepSingle_self_locked (acc : DB × List Nat × List Event) (d : Skill)
    (hrow : skillFind acc.1 d.id = some d) (hd : d.status = .LOCKED) :
    unlockStepSingle acc d =
      if (d.prerequisiteIds.filterMap (skillFind acc.1)).all
          (fun p => p.status = .COMPLETED ∨ p.status = .MASTERED) then
        (updateSkillRow acc.1 d.id (fun s => { s with status := SkillStatus.AVAILABLE }),
         acc.2.1 ++ [d.id], acc.2.2 ++ [.skillUnlock d.id])
      else acc := by
  unfold unlockStepSingle
  dsimp only
  rw [hrow]
  dsimp only
  by_cases hc : (d.prerequisiteIds.filterMap (skillFind acc.1)).all
      (fun p => p.status = .COMPLETED ∨ p.status = .MASTERED) = true
  · rw [if_pos ⟨hc, hd⟩, if_pos hc]
  · rw [if_neg (fun hcc => hc hcc.1), if_neg hc]

lemma onlyUnlocked_unlockFold {db : DB} (l : List Skill)
    (acc : DB × List Nat × List Event)
    (hcons : ∀ e ∈ l, skillFind db e.id = some e)
    (h : onlyUnlocked db acc.1) : onlyUnlocked db (l.foldl unlockStepSingle acc).1 :=
  foldl_preserves_mem (fun a => onlyUnlocked db a.1) _ l acc h
    (fun a e he ha => onlyUnlocked_unlockStepSingle a e (hcons e he) ha)

/-- Unlock correctness of the single route's resolver: under a
consistent snapshot (each fetched dependent matches its current row,
with distinct ids), a LOCKED dependent ends AVAILABLE iff every one of
its prerequisites is COMPLETED or MASTERED, stays LOCKED otherwise, and
an already-AVAILABLE dependent's row is left untouched. -/
lemma unlockDependentsSingle_spec (db : DB) (deps : List Skill) (d : Skill)
    (hd : d ∈ deps) (hnodup : (deps.map (·.id)).Nodup)
    (hcons : ∀ e ∈ deps, skillFind db e.id = some e) :
    (d.status = .LOCKED →
       (skillStatusIn (unlockDependentsSingle db deps).1 d.id = some .AVAILABLE ↔
         prereqsCompleted db d = true) ∧
       (prereqsCompleted db d = false →
         skillStatusIn (unlockDependentsSingle db deps).1 d.id = some .LOCKED)) ∧
    (d.status = .AVAILABLE →
       skillFind (unlockDependentsSingle db deps).1 d.id = some d) := by
  obtain ⟨l1, l2, rfl⟩ := List.append_of_mem hd
  rw [List.map_append, List.map_cons, List.nodup_append] at hnodup
  obtain ⟨hn1, hn2, hdisj⟩ := hnodup
  have hno1 : ∀ e ∈ l1, e.id ≠ d.id := fun e he heq =>
    (hdisj (List.mem_map_of_mem _ he)) (by rw [heq]; exact List.mem_cons_self _ _)
  have hno2 : ∀ e ∈ l2, e.id ≠ d.id := fun e he heq =>
    ((List.nodup_cons.mp hn2).1) (by rw [← heq]; exact List.mem_map_of_mem _ he)
  have hdm : d ∈ l1 ++ d :: l2 := List.mem_append.mpr (Or.inr (List.mem_cons_self _ _))
  unfold unlockDependentsSingle
  rw [List.foldl_append, List.foldl_cons]
  have hfr1 : skillFind (List.foldl unlockStepSingle (db, [], []) l1).1 d.id = some d := by
    rw [unlockFold_find_ne l1 _ d.id hno1]
    exact hcons d hdm
  have hinv1 : onlyUnlocked db (List.foldl unlockStepSingle (db, [], []) l1).1 :=
    onlyUnlocked_unlockFold l1 _
      (fun e he => hcons e (List.mem_append.mpr (Or.inl he)))
      (onlyUnlocked_refl db)
  constructor
  · intro hlocked
    rw [unlockStepSingle_self_locked _ d hfr1 hlocked,
      onlyUnlocked_doneCheck hinv1 d.prerequisiteIds]
    by_cases hp : prereqsCompleted db d = true
    · have hp' : (d.prerequisiteIds.filterMap (skillFind db)).all
          (fun p => p.status = .COMPLETED ∨ p.status = .MASTERED) = true := hp
      rw [if_pos hp']
      constructor
      · rw [show skillStatusIn
            (List.foldl unlockStepSingle
              (updateSkillRow (List.foldl unlockStepSingle (db, [], []) l1).1 d.id
                 (fun s => { s with status := SkillStatus.AVAILABLE }),
               (List.foldl unlockStepSingle (db, [], []) l1).2.1 ++ [d.id],
               (List.foldl unlockStepSingle (db, [], []) l1).2.2 ++ [.skillUnlock d.id]) l2).1
            d.id = some .AVAILABLE from ?_]
        · simp [hp]
        · unfold skillStatusIn
          rw [unlockFold_find_ne l2 _ d.id hno2]
          rw [skillFind_updateSkillRow_self _ d.id
            (fun s => { s with status := SkillStatus.AVAILABLE }) (fun s => rfl) d hfr1]
          rfl
      · intro hfalse
        rw [hp] at hfalse
        cases hfalse
    · have hp' : ¬ ((d.prerequisiteIds.filterMap (skillFind db)).all
          (fun p => p.status = .COMPLETED ∨ p.status = .MASTERED) = true) := hp
      rw [if_neg hp']
      have hrow : skillFind (List.foldl unlockStepSingle
          (List.foldl unlockStepSingle (db, [], []) l1) l2).1 d.id = some d := by
        rw [unlockFold_find_ne l2 _ d.id hno2]
        exact hfr1
      constructor
      · constructor
        · intro havail
          unfold skillStatusIn at havail
          rw [hrow] at havail
          simp only [Option.map_some'] at havail
          rw [hlocked] at havail
          cases Option.some.inj havail
        · intro htrue
          exact absurd htrue hp
      · intro _
        unfold skillStatusIn
        rw [hrow]
        simp [hlocked]
  · intro havail
    rw [unlockStepSingle_self_notLocked _ d hfr1 (by rw [havail]; intro h; cases h)]
    rw [unlockFold_find_ne l2 _ d.id hno2]
    exact hfr1

lemma bulkUnlockStep_find_ne (skillId : Nat) (now : Int) (dbF : DB)
    (acc : DB × List Event) (e : Skill) (j : Nat) (hne : e.id ≠ j) :
    skillFind (bulkUnlockStep skillId now dbF acc e).1 j = skillFind acc.1 j := by
  unfold bulkUnlockStep
  dsimp only
  split
  · exact skillFind_updateSkillRow_ne acc.1 e.id
      (fun s => { s with status := SkillStatus.AVAILABLE, unlockedAt := some now })
      (fun s => rfl) j (Ne.symm hne)
  · rfl

lemma bulkFold_find_ne (skillId : Nat) (now : Int) (dbF : DB) (l : List Skill) :
    ∀ (acc : DB × List Event) (j : Nat), (∀ e ∈ l, e.id ≠ j) →
    skillFind (l.foldl (bulkUnlockStep skillId now dbF) acc).1 j = skillFind acc.1 j := by
  induction l with
  | nil => intro acc j _; rfl
  | cons e l ih =>
    intro acc j h
    rw [List.foldl_cons, ih _ j (fun x hx => h x (List.mem_cons_of_mem e hx)),
      bulkUnlockStep_find_ne skillId now dbF acc e j (h e (List.mem_cons_self e l))]

lemma doneCheck_absorb_trigger (db : DB) (skillId : Nat)
    (hS : skillStatusIn db skillId = some .COMPLETED) (ids : List Nat) :
    (ids.filterMap (skillFind db)).all
        (fun p => p.id = skillId ∨ p.status = .COMPLETED ∨ p.status = .MASTERED) =
      (ids.filterMap (skillFind db)).all
        (fun p => p.status = .COMPLETED ∨ p.status = .MASTERED) := by
  apply all_congr_mem
  intro p hp
  by_cases hpid : p.id = skillId
  · obtain ⟨pid, hpidmem, hfind⟩ := List.mem_filterMap.mp hp
    have hpp : p.id = pid := skillFind_id db pid p hfind
    have hfS : skillFind db skillId = some p := by rw [← hpid, hpp]; exact hfind
    unfold skillStatusIn at hS
    rw [hfS] at hS
    simp only [Option.map_some'] at hS
    have : p.status = .COMPLETED := Option.some.inj hS
    simp [hpid, this]
  · simp [hpid]

/-- Unlock correctness of the bulk route's cascade for one newly
completed skill: given distinct skill ids and the trigger row already
COMPLETED in the store, a LOCKED dependent of the trigger ends AVAILABLE
iff every one of its prerequisites is COMPLETED or MASTERED, stays
LOCKED otherwise, and an AVAILABLE skill's row is untouched. -/
lemma bulkCascade_spec (db : DB) (skillId : Nat) (now : Int) (d : Skill)
    (hnodup : (db.skills.map (·.id)).Nodup)
    (hd : skillFind db d.id = some d)
    (hS : skillStatusIn db skillId = some .COMPLETED) :
    (d.status = .LOCKED → d.prerequisiteIds.contains skillId = true →
       (skillStatusIn (bulkCascade db skillId now).1 d.id = some .AVAILABLE ↔
          prereqsCompleted db d = true) ∧
       (prereqsCompleted db d = false →
          skillStatusIn (bulkCascade db skillId now).1 d.id = some .LOCKED)) ∧
    (d.status = .AVAILABLE → skillFind (bulkCascade db skillId now).1 d.id = some d) := by
  have hdm : d ∈ db.skills := skillFind_mem db d.id d hd
  have hinj : ∀ e ∈ db.skills, e.id = d.id → e = d := by
    intro e he heq
    exact List.inj_on_of_nodup_map hnodup he hdm heq
  constructor
  · intro hlocked hcontains
    have hdf : d ∈ db.skills.filter (fun s =>
        s.prerequisiteIds.contains skillId ∧ s.status = .LOCKED) := by
      rw [List.mem_filter]
      refine ⟨hdm, ?_⟩
      simp only [decide_eq_true_eq]
      refine ⟨by simpa using hcontains, hlocked⟩
    have hsubnodup : ((db.skills.filter (fun s =>
        s.prerequisiteIds.contains skillId ∧ s.status = .LOCKED)).map (·.id)).Nodup :=
      hnodup.sublist (List.Sublist.map _ (List.filter_sublist _))
    obtain ⟨m1, m2, hsplit⟩ := List.append_of_mem hdf
    unfold bulkCascade
    rw [hsplit]
    rw [hsplit] at hsubnodup
    rw [List.map_append, List.map_cons, List.nodup_append] at hsubnodup
    obtain ⟨hn1, hn2, hdisj⟩ := hsubnodup
    have hno1 : ∀ e ∈ m1, e.id ≠ d.id := fun e he heq =>
      (hdisj (List.mem_map_of_mem _ he)) (by rw [heq]; exact List.mem_cons_self _ _)
    have hno2 : ∀ e ∈ m2, e.id ≠ d.id := fun e he heq =>
      ((List.nodup_cons.mp hn2).1) (by rw [← heq]; exact List.mem_map_of_mem _ he)
    rw [List.foldl_append, List.foldl_cons]
    have hfr1 : skillFind ((m1.foldl (bulkUnlockStep skillId now db) (db, [])).1) d.id =
        some d := by
      rw [bulkFold_find_ne skillId now db m1 _ d.id hno1]
      exact hd
    rw [show bulkUnlockStep skillId now db
        (m1.foldl (bulkUnlockStep skillId now db) (db, [])) d =
      if (d.prerequisiteIds.filterMap (skillFind db)).all
          (fun p => p.id = skillId ∨ p.status = .COMPLETED ∨ p.status = .MASTERED) then
        (updateSkillRow (m1.foldl (bulkUnlockStep skillId now db) (db, [])).1 d.id
           (fun s => { s with status := SkillStatus.AVAILABLE, unlockedAt := some now }),
         (m1.foldl (bulkUnlockStep skillId now db) (db, [])).2 ++ [.skillUnlock d.id])
      else m1.foldl (bulkUnlockStep skillId now db) (db, []) from rfl]
    rw [doneCheck_absorb_trigger db skillId hS d.prerequisiteIds]
    by_cases hp : prereqsCompleted db d = true
    · have hp' : (d.prerequisiteIds.filterMap (skillFind db)).all
          (fun p => p.status = .COMPLETED ∨ p.status = .MASTERED) = true := hp
      rw [if_pos hp']
      constructor
      · have : skillStatusIn (m2.foldl (bulkUnlockStep skillId now db)
            (updateSkillRow (m1.foldl (bulkUnlockStep skillId now db) (db, [])).1 d.id
               (fun s => { s with status := SkillStatus.AVAILABLE, unlockedAt := some now }),
             (m1.foldl (bulkUnlockStep skillId now db) (db, [])).2 ++
               [.skillUnlock d.id])).1 d.id = some .AVAILABLE := by
          unfold skillStatusIn
          rw [bulkFold_find_ne skillId now db m2 _ d.id hno2]
          rw [skillFind_updateSkillRow_self _ d.id
            (fun s => { s with status := SkillStatus.AVAILABLE, unlockedAt := some now })
            (fun s => rfl) d hfr1]
          rfl
        rw [this]
        simp [hp]
      · intro hfalse
        rw [hp] at hfalse
        cases hfalse
    · have hp' : ¬ ((d.prerequisiteIds.filterMap (skillFind db)).all
          (fun p => p.status = .COMPLETED ∨ p.status = .MASTERED) = true) := hp
      rw [if_neg hp']
      have hrow : skillFind ((m2.foldl (bulkUnlockStep skillId now db)
          (m1.foldl (bulkUnlockStep skillId now db) (db, []))).1) d.id = some d := by
        rw [bulkFold_find_ne skillId now db m2 _ d.id hno2]
        exact hfr1
      constructor
      · constructor
        · intro havail
          unfold skillStatusIn at havail
          rw [hrow] at havail
          simp only [Option.map_some'] at havail
          rw [hlocked] at havail
          cases Option.some.inj havail
        · intro htrue
          exact absurd htrue hp
      · intro _
        unfold skillStatusIn
        rw [hrow]
        simp [hlocked]
  · intro havail
    have hall : ∀ e ∈ db.skills.filter (fun s =>
        s.prerequisiteIds.contains skillId ∧ s.status = .LOCKED), e.id ≠ d.id := by
      intro e he heq
      have hef := List.mem_filter.mp he
      have : e = d := hinj e hef.1 heq
      subst this
      have := of_decide_eq_true hef.2
      rw [havail] at this
      cases this.2
    unfold bulkCascade
    rw [bulkFold_find_ne skillId now db _ _ d.id hall]
    exact hd

-- ===========================================================================
-- C3.  The unlock resolvers unlock exactly when all prerequisites are
-- COMPLETED or MASTERED.
-- ===========================================================================

/-- C3: in both routes' resolvers, a dependent currently LOCKED
transitions to AVAILABLE if and only if every one of its prerequisites
(not just the triggering one) is COMPLETED or MASTERED; a dependent with
an incomplete prerequisite stays LOCKED; and a dependent that is already
AVAILABLE is left untouched.  The single-route part assumes the fetched
dependents snapshot matches the store (distinct ids); the bulk part
assumes distinct skill ids and the triggering skill already written
COMPLETED, as it is at the cascade call site. -/
theorem unlock_available_iff_all_prereqs_completed :
    (∀ (db : DB) (deps : List Skill) (d : Skill),
       d ∈ deps → (deps.map (·.id)).Nodup →
       (∀ e ∈ deps, skillFind db e.id = some e) →
       (d.status = .LOCKED →
          (skillStatusIn (unlockDependentsSingle db deps).1 d.id = some .AVAILABLE ↔
            prereqsCompleted db d = true) ∧
          (prereqsCompleted db d = false →
            skillStatusIn (unlockDependentsSingle db deps).1 d.id = some .LOCKED)) ∧
       (d.status = .AVAILABLE →
          skillFind (unlockDependentsSingle db deps).1 d.id = some d)) ∧
    (∀ (db : DB) (skillId : Nat) (now : Int) (d : Skill),
       (db.skills.map (·.id)).Nodup →
       skillFind db d.id = some d →
       skillStatusIn db skillId = some .COMPLETED →
       (d.status = .LOCKED → d.prerequisiteIds.contains skillId = true →
          (skillStatusIn (bulkCascade db skillId now).1 d.id = some .AVAILABLE ↔
            prereqsCompleted db d = true) ∧
          (prereqsCompleted db d = false →
            skillStatusIn (bulkCascade db skillId now).1 d.id = some .LOCKED)) ∧
       (d.status = .AVAILABLE → skillFind (bulkCascade db skillId now).1 d.id = some d)) :=
  ⟨unlockDependentsSingle_spec, bulkCascade_spec⟩

/-- Completed prerequisite skill for the unlock witness store. -/
def skillDone : Skill :=
  { id := 10, treeId := 1, name := "P", currentXP := 200, currentLevel := 3,
    maxLevel := 10, status := .COMPLETED, completedAt := some 0, unlockedAt := none,
    xpToNextLevel := 84, prerequisiteIds := [] }

/-- LOCKED dependent with prerequisites 10 (COMPLETED) and 30 (LOCKED). -/
def skillC40 : Skill :=
  { id := 40, treeId := 1, name := "C", currentXP := 0, currentLevel := 1,
    maxLevel := 10, status := .LOCKED, completedAt := none, unlockedAt := none,
    xpToNextLevel := 65, prerequisiteIds := [10, 30] }

/-- LOCKED skill that is an unfinished prerequisite of skill 40. -/
def skillD30 : Skill :=
  { id := 30, treeId := 1, name := "D", currentXP := 0, currentLevel := 1,
    maxLevel := 10, status := .LOCKED, completedAt := none, unlockedAt := none,
    xpToNextLevel := 65, prerequisiteIds := [] }

/-- Already-AVAILABLE dependent of skill 10 for the no-op case. -/
def skillE50 : Skill :=
  { id := 50, treeId := 1, name := "E", currentXP := 0, currentLevel := 1,
    maxLevel := 10, status := .AVAILABLE, completedAt := none, unlockedAt := none,
    xpToNextLevel := 65, prerequisiteIds := [10] }

/-- Store for the unlock witness: skill 10 COMPLETED; 20 LOCKED with
prerequisite 10; 40 LOCKED with prerequisites 10 and 30 (incomplete);
50 AVAILABLE. -/
def dbC3 : DB :=
  { users := [userW], trees := [treeW],
    skills := [skillDone, skillB, skillC40, skillD30, skillE50],
    tasks := [], activities := [], achievements := [], userAchievements := [] }

/-- C3 witness: on `dbC3`, the single resolver unlocks skill 20 (its
only prerequisite is COMPLETED), keeps skill 40 LOCKED (prerequisite 30
is LOCKED), leaves the AVAILABLE skill 50 untouched; and the bulk
cascade triggered by skill 10 unlocks skill 20. -/
theorem unlock_available_iff_witness :
    skillStatusIn (unlockDependentsSingle dbC3 [skillB, skillC40, skillE50]).1 skillB.id =
      some .AVAILABLE ∧
    skillStatusIn (unlockDependentsSingle dbC3 [skillB, skillC40, skillE50]).1 skillC40.id =
      some .LOCKED ∧
    skillFind (unlockDependentsSingle dbC3 [skillB, skillC40, skillE50]).1 skillE50.id =
      some skillE50 ∧
    skillStatusIn (bulkCascade dbC3 10 99).1 skillB.id = some .AVAILABLE :=
  ⟨((unlock_available_iff_all_prereqs_completed.1 dbC3 [skillB, skillC40, skillE50]
      skillB (by decide) (by decide) (by decide)).1 (by decide)).1.mpr (by decide),
   ((unlock_available_iff_all_prereqs_completed.1 dbC3 [skillB, skillC40, skillE50]
      skillC40 (by decide) (by decide) (by decide)).1 (by decide)).2 (by decide),
   (unlock_available_iff_all_prereqs_completed.1 dbC3 [skillB, skillC40, skillE50]
      skillE50 (by decide) (by decide) (by decide)).2 (by decide),
   ((unlock_available_iff_all_prereqs_completed.2 dbC3 10 99 skillB
      (by decide) (by decide) (by decide)).1 (by decide) (by decide)).1.mpr (by decide)⟩

-- ===========================================================================
-- Frame lemmas for the bulk pipeline
-- ===========================================================================

/-- Eligibility of a requested task id in the bulk route: fetched by the
ownership query and not yet completed. -/
def eligibleTask (db : DB) (userId : Nat) (taskIds : List Nat) (t : Task) : Bool :=
  (fun t => (taskIds.contains t.id ∧ taskOwner db t = some userId : Bool)) t &&
  (fun t => (t.completedAt = none : Bool)) t

lemma filter_pair {α : Type} (p q : α → Bool) (l : List α) :
    (l.filter p).filter q = l.filter (fun a => p a && q a) := by
  induction l with
  | nil => rfl
  | cons x xs ih =>
    by_cases hp : p x
    · by_cases hq : q x <;> simp [List.filter_cons, hp, hq, ih]
    · simp [List.filter_cons, hp, ih]

lemma foldl_add_eq_sum (l : List Task) :
    ∀ (init : Int), l.foldl (fun sum t => sum + (t.xpReward : Int)) init =
      init + (l.map (fun t => (t.xpReward : Int))).sum := by
  induction l with
  | nil => intro init; simp
  | cons t l ih =>
    intro init
    rw [List.foldl_cons, ih, List.map_cons, List.sum_cons]
    ring

lemma userFind_eq_of_users {db db' : DB} (h : db'.users = db.users) (j : Nat) :
    userFind db' j = userFind db j := by
  unfold userFind
  rw [h]

lemma taskFind_eq_of_tasks {db db' : DB} (h : db'.tasks = db.tasks) (j : Nat) :
    taskFind db' j = taskFind db j := by
  unfold taskFind
  rw [h]

/-- The three record fields (users, tasks, activities) that the bulk
skill loop and its cascade never touch. -/
def utaFrame (db db' : DB) : Prop :=
  db'.users = db.users ∧ db'.tasks = db.tasks ∧ db'.activities = db.activities

lemma utaFrame_refl (db : DB) : utaFrame db db := ⟨rfl, rfl, rfl⟩

lemma utaFrame_trans {a b c : DB} (h1 : utaFrame a b) (h2 : utaFrame b c) : utaFrame a c :=
  ⟨h2.1.trans h1.1, h2.2.1.trans h1.2.1, h2.2.2.trans h1.2.2⟩

lemma utaFrame_updateSkillRow (db : DB) (i : Nat) (f : Skill → Skill) :
    utaFrame db (updateSkillRow db i f) := ⟨rfl, rfl, rfl⟩

lemma utaFrame_bulkUnlockStep (skillId : Nat) (now : Int) (dbF : DB)
    (acc : DB × List Event) (e : Skill) (h : utaFrame dbF0 acc.1) :
    utaFrame dbF0 (bulkUnlockStep skillId now dbF acc e).1 := by
  unfold bulkUnlockStep
  dsimp only
  split
  · exact utaFrame_trans h (utaFrame_updateSkillRow _ _ _)
  · exact h

lemma utaFrame_bulkCascade {db0 db : DB} (skillId : Nat) (now : Int)
    (h : utaFrame db0 db) : utaFrame db0 (bulkCascade db skillId now).1 := by
  unfold bulkCascade
  exact foldl_preserves (fun acc => utaFrame db0 acc.1) _ _ (db, []) h
    (fun a x ha => utaFrame_bulkUnlockStep skillId now db a x ha)

lemma utaFrame_bulkSkillStep {db0 dbS : DB} (now : Int) (acc : DB × Nat × List Event)
    (entry : Nat × SkillUpdateEntry) (h : utaFrame db0 acc.1) :
    utaFrame db0 (bulkSkillStep dbS now acc entry).1 := by
  unfold bulkSkillStep
  dsimp only
  split
  · exact h
  · split
    · split
      · exact utaFrame_bulkCascade _ _ (utaFrame_trans h (utaFrame_updateSkillRow _ _ _))
      · exact utaFrame_trans h (utaFrame_updateSkillRow _ _ _)
    · split
      · exact utaFrame_bulkCascade _ _ (utaFrame_trans h (utaFrame_updateSkillRow _ _ _))
      · exact utaFrame_trans h (utaFrame_updateSkillRow _ _ _)

lemma utaFrame_bulkSkillFold {db0 dbS : DB} (now : Int)
    (entries : List (Nat × SkillUpdateEntry)) (acc : DB × Nat × List Event)
    (h : utaFrame db0 acc.1) :
    utaFrame db0 (entries.foldl (bulkSkillStep dbS now) acc).1 :=
  foldl_preserves (fun a => utaFrame db0 a.1) _ entries acc h
    (fun a x ha => utaFrame_bulkSkillStep now a x ha)

lemma grantStep_users (uid : Nat) (acc : DB × List String × List Event) (aid : String) :
    (grantStep uid acc aid).1.users = acc.1.users := by
  unfold grantStep
  split
  · rfl
  · dsimp only
    split <;> rfl

lemma grantStep_tasks (uid : Nat) (acc : DB × List String × List Event) (aid : String) :
    (grantStep uid acc aid).1.tasks = acc.1.tasks := by
  unfold grantStep
  split
  · rfl
  · dsimp only
    split <;> rfl

lemma grantStep_activities (uid : Nat) (acc : DB × List String × List Event)
    (aid : String) : (grantStep uid acc aid).1.activities = acc.1.activities := by
  unfold grantStep
  split
  · rfl
  · dsimp only
    split <;> rfl

lemma grantAchievements_users (db : DB) (uid : Nat) (data : AchievementCheckData) :
    (grantAchievements db uid data).1.users = db.users := by
  unfold grantAchievements
  exact foldl_preserves (fun acc => acc.1.users = db.users) _ _ (db, [], []) rfl
    (fun acc x hacc => (grantStep_users uid acc x).trans hacc)

lemma grantAchievements_tasks (db : DB) (uid : Nat) (data : AchievementCheckData) :
    (grantAchievements db uid data).1.tasks = db.tasks := by
  unfold grantAchievements
  exact foldl_preserves (fun acc => acc.1.tasks = db.tasks) _ _ (db, [], []) rfl
    (fun acc x hacc => (grantStep_tasks uid acc x).trans hacc)

lemma grantAchievements_activities (db : DB) (uid : Nat) (data : AchievementCheckData) :
    (grantAchievements db uid data).1.activities = db.activities := by
  unfold grantAchievements
  exact foldl_preserves (fun acc => acc.1.activities = db.activities) _ _ (db, [], []) rfl
    (fun acc x hacc => (grantStep_activities uid acc x).trans hacc)

-- ===========================================================================
-- Association-list (JavaScript Map) lemmas for the bulk grouping
-- ===========================================================================

lemma find?_map_set (k : Nat) (v : SkillUpdateEntry) :
    ∀ (m : List (Nat × SkillUpdateEntry)), m.any (fun p => p.1 = k) = true →
    (m.map (fun p => if p.1 = k then (k, v) else p)).find? (fun p => p.1 = k) =
      some (k, v) := by
  intro m
  induction m with
  | nil => intro h; simp at h
  | cons p m ih =>
    intro hany
    by_cases hp : p.1 = k
    · simp only [List.map_cons, if_pos hp]
      rw [List.find?_cons_of_pos _ (by simp)]
    · simp only [List.map_cons, if_neg hp]
      rw [List.find?_cons_of_neg _ (by simp [hp])]
      simp only [List.any_cons, Bool.or_eq_true, decide_eq_true_eq] at hany
      exact ih (by simpa using hany.resolve_left hp)

lemma mapGet_mapSet_self (m : List (Nat × SkillUpdateEntry)) (k : Nat)
    (v : SkillUpdateEntry) : mapGet (mapSet m k v) k = some v := by
  unfold mapGet mapSet
  split
  · next hmem => rw [find?_map_set k v m hmem]; rfl
  · next hmem =>
    rw [List.find?_append]
    rw [List.find?_eq_none.mpr ?_]
    · rw [Option.none_or, List.find?_cons_of_pos _ (by simp)]
      rfl
    · intro p hp
      simp only [decide_eq_true_eq]
      intro hpk
      exact hmem (List.any_eq_true.mpr ⟨p, hp, by simp [hpk]⟩)

lemma mapGet_mapSet_ne (m : List (Nat × SkillUpdateEntry)) (k : Nat)
    (v : SkillUpdateEntry) (j : Nat) (hj : j ≠ k) :
    mapGet (mapSet m k v) j = mapGet m j := by
  unfold mapGet mapSet
  split
  · next hmem =>
    clear hmem
    congr 1
    induction m with
    | nil => rfl
    | cons p m ih =>
      by_cases hpj : p.1 = j
      · have hpk : ¬ (p.1 = k) := by rw [hpj]; exact hj
        simp only [List.map_cons, if_neg hpk]
        rw [List.find?_cons_of_pos _ (by simp [hpj]),
          List.find?_cons_of_pos _ (by simp [hpj])]
      · by_cases hpk : p.1 = k
        · simp only [List.map_cons, if_pos hpk]
          rw [List.find?_cons_of_neg _ (by simp; exact fun hh => hj hh.symm),
            List.find?_cons_of_neg _ (by simp [hpj])]
          exact ih
        · simp only [List.map_cons, if_neg hpk]
          rw [List.find?_cons_of_neg _ (by simp [hpj]),
            List.find?_cons_of_neg _ (by simp [hpj])]
          exact ih
  · congr 1
    rw [List.find?_append]
    rw [show ([(k, v)].find? (fun p => p.1 = j)) = none from ?_]
    · exact Option.or_none
    · rw [List.find?_cons_of_neg _ (by simp; exact fun hh => hj hh.symm)]
      rfl

-- ===========================================================================
-- Grouping-fold correctness (bulk route step 4)
-- ===========================================================================

/-- Sum of the base rewards of the tasks of skill `k` in a batch. -/
def batchXPList (l : List Task) (k : Nat) : Int :=
  ((l.filter (fun t => t.skillId = k)).map (fun t => (t.xpReward : Int))).sum

/-- The `allCompleted` value the grouping loop computes for skill `k`:
every task of the skill is either already completed or in the batch. -/
def bulkAllCompleted (db : DB) (inc : List Task) (k : Nat) : Bool :=
  let skillTasks := db.tasks.filter (fun t => t.skillId = k)
  let completedTaskIds :=
    (skillTasks.filter (fun t => t.completedAt ≠ none)).map (·.id) ++
    (inc.filter (fun t => t.skillId = k)).map (·.id)
  skillTasks.all (fun t => completedTaskIds.contains t.id)

lemma batchXPList_cons_eq (t : Task) (l : List Task) (k : Nat) (h : t.skillId = k) :
    batchXPList (t :: l) k = (t.xpReward : Int) + batchXPList l k := by
  unfold batchXPList
  simp [List.filter_cons, h]

lemma batchXPList_cons_ne (t : Task) (l : List Task) (k : Nat) (h : ¬ t.skillId = k) :
    batchXPList (t :: l) k = batchXPList l k := by
  unfold batchXPList
  simp [List.filter_cons, h]

lemma groupStep_found (db : DB) (inc : List Task)
    (acc : List (Nat × SkillUpdateEntry)) (t : Task) (skill : Skill)
    (h : skillFind db t.skillId = some skill) :
    groupStep db inc acc t =
      mapSet acc skill.id
        { currentXP := ((mapGet acc skill.id).getD
            { currentXP := skill.currentXP, allCompleted := false }).currentXP +
            (t.xpReward : Int),
          allCompleted := bulkAllCompleted db inc skill.id } := by
  unfold groupStep bulkAllCompleted
  rw [h]

lemma groupStep_missing (db : DB) (inc : List Task)
    (acc : List (Nat × SkillUpdateEntry)) (t : Task)
    (h : skillFind db t.skillId = none) :
    groupStep db inc acc t = acc := by
  unfold groupStep
  rw [h]

lemma group_fold_get (db : DB) (inc : List Task) (k : Nat) (s : Skill)
    (hs : skillFind db k = some s) :
    ∀ (l : List Task) (acc : List (Nat × SkillUpdateEntry)),
    (mapGet acc k = none →
       mapGet (l.foldl (groupStep db inc) acc) k =
         (if l.any (fun t => t.skillId = k) then
            some { currentXP := s.currentXP + batchXPList l k,
                   allCompleted := bulkAllCompleted db inc k }
          else none)) ∧
    (∀ v0, mapGet acc k = some v0 →
       mapGet (l.foldl (groupStep db inc) acc) k =
         (if l.any (fun t => t.skillId = k) then
            some { currentXP := v0.currentXP + batchXPList l k,
                   allCompleted := bulkAllCompleted db inc k }
          else some v0)) := by
  intro l
  induction l with
  | nil =>
    intro acc
    exact ⟨fun h => by simpa using h, fun v0 h => by simpa using h⟩
  | cons t l ih =>
    intro acc
    cases hrow : skillFind db t.skillId with
    | none =>
      have htk : ¬ (t.skillId = k) := by
        intro hh
        rw [hh, hs] at hrow
        cases hrow
      rw [List.foldl_cons, groupStep_missing db inc acc t hrow]
      constructor
      · intro h
        rw [(ih acc).1 h]
        simp [List.any_cons, htk, batchXPList_cons_ne t l k htk]
      · intro v0 h
        rw [(ih acc).2 v0 h]
        simp [List.any_cons, htk, batchXPList_cons_ne t l k htk]
    | some skl =>
      have hkid : skl.id = t.skillId := skillFind_id db t.skillId skl hrow
      rw [List.foldl_cons, groupStep_found db inc acc t skl hrow]
      by_cases htk : t.skillId = k
      · have hskl : skl = s := by
          rw [htk] at hrow
          rw [hrow] at hs
          exact Option.some.inj hs
        have hkk : skl.id = k := by rw [hkid, htk]
        rw [hkk, hskl]
        constructor
        · intro h
          rw [h]
          rw [(ih _).2 _ (mapGet_mapSet_self acc k _)]
          simp only [Option.getD_none]
          by_cases hl : l.any (fun t => t.skillId = k) = true
          · rw [if_pos hl, if_pos (by simp [List.any_cons, hl])]
            rw [batchXPList_cons_eq t l k htk]
            congr 1
            ring_nf
          · rw [if_neg hl, if_pos (by simp [List.any_cons, htk])]
            rw [batchXPList_cons_eq t l k htk]
            congr 1
            have : batchXPList l k = 0 := by
              unfold batchXPList
              rw [List.filter_eq_nil.mpr ?_]
              · rfl
              · intro t2 ht2
                simp only [decide_eq_true_eq]
                intro hh
                exact hl (List.any_eq_true.mpr ⟨t2, ht2, by simp [hh]⟩)
            rw [this]
            ring_nf
        · intro v0 h
          rw [h]
          rw [(ih _).2 _ (mapGet_mapSet_self acc k _)]
          simp only [Option.getD_some]
          by_cases hl : l.any (fun t => t.skillId = k) = true
          · rw [if_pos hl, if_pos (by simp [List.any_cons, hl])]
            rw [batchXPList_cons_eq t l k htk]
            congr 1
            ring_nf
          · rw [if_neg hl, if_pos (by simp [List.any_cons, htk])]
            rw [batchXPList_cons_eq t l k htk]
            congr 1
            have : batchXPList l k = 0 := by
              unfold batchXPList
              rw [List.filter_eq_nil.mpr ?_]
              · rfl
              · intro t2 ht2
                simp only [decide_eq_true_eq]
                intro hh
                exact hl (List.any_eq_true.mpr ⟨t2, ht2, by simp [hh]⟩)
            rw [this]
            ring_nf
      · have hne : k ≠ skl.id := by
          rw [hkid]
          exact fun hh => htk hh.symm
        constructor
        · intro h
          rw [(ih _).1 (by rw [mapGet_mapSet_ne _ _ _ k hne]; exact h)]
          simp [List.any_cons, htk, batchXPList_cons_ne t l k htk]
        · intro v0 h
          rw [(ih _).2 v0 (by rw [mapGet_mapSet_ne _ _ _ k hne]; exact h)]
          simp [List.any_cons, htk, batchXPList_cons_ne t l k htk]

-- ===========================================================================
-- Event bookkeeping for the bulk pipeline
-- ===========================================================================

/-- Whether an event is the aggregated skill-progress write for skill
`k`. -/
def updFor (k : Nat) : Event → Bool
  | .skillUpdate j _ _ _ => j = k
  | _ => false

/-- Skill-write events (either kind). -/
def skillWriteEvent : Event → Bool
  | .skillUpdate _ _ _ _ => true
  | .skillUnlock _ => true
  | _ => false

lemma bulkUnlockStep_events (skillId : Nat) (now : Int) (dbF : DB)
    (acc : DB × List Event) (e : Skill) :
    ∃ tail, (bulkUnlockStep skillId now dbF acc e).2 = acc.2 ++ tail ∧
      ∀ x ∈ tail, x = Event.skillUnlock e.id := by
  unfold bulkUnlockStep
  dsimp only
  split
  · exact ⟨[Event.skillUnlock e.id], rfl, by simp⟩
  · exact ⟨[], by simp, by simp⟩

lemma bulkCascade_events (db : DB) (skillId : Nat) (now : Int) :
    ∀ x ∈ (bulkCascade db skillId now).2, ∃ i, x = Event.skillUnlock i := by
  unfold bulkCascade
  refine foldl_preserves (fun acc => ∀ x ∈ acc.2, ∃ i, x = Event.skillUnlock i) _ _
    (db, []) (by simp) ?_
  intro acc e ha x hx
  obtain ⟨tail, heq, htail⟩ := bulkUnlockStep_events skillId now db acc e
  rw [heq] at hx
  rcases List.mem_append.mp hx with h | h
  · exact ha x h
  · exact ⟨e.id, htail x h⟩

lemma bulkSkillStep_countP (db0 : DB) (now : Int) (acc : DB × Nat × List Event)
    (entry : Nat × SkillUpdateEntry) (k : Nat) :
    (bulkSkillStep db0 now acc entry).2.2.countP (updFor k) =
      acc.2.2.countP (updFor k) +
        (if (skillFind db0 entry.1).isSome ∧ entry.1 = k then 1 else 0) := by
  have hcasc : ∀ (d : DB), ((bulkCascade d entry.1 now).2).countP (updFor k) = 0 := by
    intro d
    rw [List.countP_eq_zero.mpr ?_]
    intro x hx
    obtain ⟨i, hi⟩ := bulkCascade_events d entry.1 now x hx
    rw [hi]
    exact Bool.false_ne_true
  unfold bulkSkillStep
  dsimp only
  split
  · next hrow =>
    rw [if_neg]
    · omega
    · rintro ⟨hsome, -⟩
      rw [hrow] at hsome
      cases hsome
  · next skl hrow =>
    have hupd : ∀ (a : Int) (c : Nat) (st : SkillStatus),
        ([Event.skillUpdate entry.1 a c st] : List Event).countP (updFor k) =
          if (skillFind db0 entry.1).isSome ∧ entry.1 = k then 1 else 0 := by
      intro a c st
      rw [hrow]
      by_cases hk : entry.1 = k
      · rw [if_pos ⟨rfl, hk⟩]
        simp [List.countP_cons, updFor, hk]
      · rw [if_neg (fun hh => hk hh.2)]
        simp [List.countP_cons, updFor, hk]
    split
    · split
      · dsimp only
        rw [List.countP_append, List.countP_append, hcasc, hupd]
        omega
      · dsimp only
        rw [List.countP_append, hupd]
    · split
      · dsimp only
        rw [List.countP_append, List.countP_append, hcasc, hupd]
        omega
      · dsimp only
        rw [List.countP_append, hupd]

lemma bulkSkillStep_events_mem (db0 : DB) (now : Int) (acc : DB × Nat × List Event)
    (entry : Nat × SkillUpdateEntry) :
    ∀ x ∈ (bulkSkillStep db0 now acc entry).2.2,
      x ∈ acc.2.2 ∨ skillWriteEvent x = true := by
  have hcasc : ∀ (d : DB) (x : Event), x ∈ (bulkCascade d entry.1 now).2 →
      skillWriteEvent x = true := by
    intro d x hx
    obtain ⟨i, hi⟩ := bulkCascade_events d entry.1 now x hx
    rw [hi]
    rfl
  unfold bulkSkillStep
  dsimp only
  split
  · exact fun x hx => Or.inl hx
  · next skl hrow =>
    split
    · split
      · intro x hx
        rcases List.mem_append.mp hx with h | h
        · rcases List.mem_append.mp h with h2 | h2
          · exact Or.inl h2
          · simp only [List.mem_singleton] at h2
            rw [h2]
            exact Or.inr rfl
        · exact Or.inr (hcasc _ x h)
      · intro x hx
        rcases List.mem_append.mp hx with h | h
        · exact Or.inl h
        · simp only [List.mem_singleton] at h
          rw [h]
          exact Or.inr rfl
    · split
      · intro x hx
        rcases List.mem_append.mp hx with h | h
        · rcases List.mem_append.mp h with h2 | h2
          · exact Or.inl h2
          · simp only [List.mem_singleton] at h2
            rw [h2]
            exact Or.inr rfl
        · exact Or.inr (hcasc _ x h)
      · intro x hx
        rcases List.mem_append.mp hx with h | h
        · exact Or.inl h
        · simp only [List.mem_singleton] at h
          rw [h]
          exact Or.inr rfl

lemma bulkSkillFold_countP (db0 : DB) (now : Int) (k : Nat) :
    ∀ (entries : List (Nat × SkillUpdateEntry)) (acc : DB × Nat × List Event),
    (∀ p ∈ entries, (skillFind db0 p.1).isSome = true) →
    (entries.foldl (bulkSkillStep db0 now) acc).2.2.countP (updFor k) =
      acc.2.2.countP (updFor k) + entries.countP (fun p => p.1 = k) := by
  intro entries
  induction entries with
  | nil => intro acc _; simp
  | cons e es ih =>
    intro acc hrows
    rw [List.foldl_cons, ih _ (fun p hp => hrows p (List.mem_cons_of_mem e hp)),
      bulkSkillStep_countP db0 now acc e k, List.countP_cons]
    have he : (skillFind db0 e.1).isSome = true := hrows e (List.mem_cons_self e es)
    by_cases hk : e.1 = k
    · rw [if_pos ⟨he, hk⟩]
      simp [hk]
      try omega
    · rw [if_neg (fun hh => hk hh.2)]
      simp [hk]
      try omega

lemma bulkSkillFold_events_mem (db0 : DB) (now : Int)
    (entries : List (Nat × SkillUpdateEntry)) (acc : DB × Nat × List Event) :
    ∀ x ∈ (entries.foldl (bulkSkillStep db0 now) acc).2.2,
      x ∈ acc.2.2 ∨ skillWriteEvent x = true := by
  induction entries generalizing acc with
  | nil => exact fun x hx => Or.inl hx
  | cons e es ih =>
    intro x hx
    rw [List.foldl_cons] at hx
    rcases ih (bulkSkillStep db0 now acc e) x hx with h | h
    · exact bulkSkillStep_events_mem db0 now acc e x h
    · exact Or.inr h

lemma grantStep_events_mem (uid : Nat) (acc : DB × List String × List Event)
    (aid : String) :
    ∀ x ∈ (grantStep uid acc aid).2.2,
      x ∈ acc.2.2 ∨ (∃ i, x = Event.achievementCatalogWrite i) ∨
        ∃ i, x = Event.userAchievementWrite i := by
  unfold grantStep
  split
  · exact fun x hx => Or.inl hx
  · dsimp only
    split
    · intro x hx
      rcases List.mem_append.mp hx with h | h
      · exact Or.inl h
      · simp only [List.mem_singleton] at h
        exact Or.inr (Or.inr ⟨aid, h⟩)
    · intro x hx
      rcases List.mem_append.mp hx with h | h
      · rcases List.mem_append.mp h with h2 | h2
        · exact Or.inl h2
        · simp only [List.mem_singleton] at h2
          exact Or.inr (Or.inl ⟨aid, h2⟩)
      · simp only [List.mem_singleton] at h
        exact Or.inr (Or.inr ⟨aid, h⟩)

lemma grantAchievements_events_mem (db : DB) (uid : Nat) (data : AchievementCheckData) :
    ∀ x ∈ (grantAchievements db uid data).2.2,
      (∃ i, x = Event.achievementCatalogWrite i) ∨
        ∃ i, x = Event.userAchievementWrite i := by
  unfold grantAchievements
  dsimp only
  refine foldl_preserves (fun (acc : DB × List String × List Event) => ∀ x ∈ acc.2.2,
    (∃ i, x = Event.achievementCatalogWrite i) ∨
      ∃ i, x = Event.userAchievementWrite i) _ _ (db, [], []) ?_ ?_
  · intro x hx
    simp at hx
  intro acc aid ha x hx
  rcases grantStep_events_mem uid acc aid x hx with h | h
  · exact ha x h
  · exact h

-- ===========================================================================
-- Skill-row XP/level tracking through the bulk per-skill loop
-- ===========================================================================

lemma skillFind_eq_of_skills {db db' : DB} (h : db'.skills = db.skills) (j : Nat) :
    skillFind db' j = skillFind db j := by
  unfold skillFind
  rw [h]

lemma skillFind_isSome_updateSkillRow (db : DB) (i : Nat) (f : Skill → Skill)
    (hf : ∀ s, (f s).id = s.id) (j : Nat) :
    (skillFind (updateSkillRow db i f) j).isSome = (skillFind db j).isSome := by
  rw [skillFind_updateSkillRow db i f hf j]
  cases skillFind db j <;> rfl

/-- The skill row `k` is present with the given XP and level. -/
def xpLevelAt (dbx : DB) (k : Nat) (xp : Int) (lvl : Nat) : Prop :=
  ∃ row, skillFind dbx k = some row ∧ row.currentXP = xp ∧ row.currentLevel = lvl

lemma xpLevelAt_updateSkillRow_pres {dbx : DB} {k : Nat} {xp : Int} {lvl : Nat}
    (i : Nat) (f : Skill → Skill) (hf : ∀ s, (f s).id = s.id)
    (hxp : ∀ s, (f s).currentXP = s.currentXP)
    (hlv : ∀ s, (f s).currentLevel = s.currentLevel)
    (h : xpLevelAt dbx k xp lvl) : xpLevelAt (updateSkillRow dbx i f) k xp lvl := by
  obtain ⟨row, hr, h1, h2⟩ := h
  refine ⟨if row.id = i then f row else row, ?_, ?_, ?_⟩
  · rw [skillFind_updateSkillRow dbx i f hf k, hr]
    rfl
  · split
    · rw [hxp row]; exact h1
    · exact h1
  · split
    · rw [hlv row]; exact h2
    · exact h2

lemma xpLevelAt_updateSkillRow_ne {dbx : DB} {k : Nat} {xp : Int} {lvl : Nat}
    (i : Nat) (f : Skill → Skill) (hf : ∀ s, (f s).id = s.id) (hik : ¬ i = k)
    (h : xpLevelAt dbx k xp lvl) : xpLevelAt (updateSkillRow dbx i f) k xp lvl := by
  obtain ⟨row, hr, h1, h2⟩ := h
  have hid : row.id = k := skillFind_id dbx k row hr
  refine ⟨row, ?_, h1, h2⟩
  rw [skillFind_updateSkillRow dbx i f hf k, hr]
  show some (if row.id = i then f row else row) = some row
  rw [if_neg (by rw [hid]; exact fun hh => hik hh.symm)]

lemma xpLevelAt_bulkUnlockStep {k : Nat} {xp : Int} {lvl : Nat}
    (skillId : Nat) (now : Int) (dbF : DB) (acc : DB × List Event) (e : Skill)
    (h : xpLevelAt acc.1 k xp lvl) :
    xpLevelAt (bulkUnlockStep skillId now dbF acc e).1 k xp lvl := by
  unfold bulkUnlockStep
  dsimp only
  split
  · exact xpLevelAt_updateSkillRow_pres _ _ (fun s => rfl) (fun s => rfl) (fun s => rfl) h
  · exact h

lemma xpLevelAt_bulkCascade {dbx : DB} {k : Nat} {xp : Int} {lvl : Nat}
    (skillId : Nat) (now : Int) (h : xpLevelAt dbx k xp lvl) :
    xpLevelAt (bulkCascade dbx skillId now).1 k xp lvl := by
  unfold bulkCascade
  exact foldl_preserves (fun acc => xpLevelAt acc.1 k xp lvl) _ _ (dbx, []) h
    (fun a x ha => xpLevelAt_bulkUnlockStep skillId now dbx a x ha)

lemma xpLevelAt_bulkSkillStep_ne {db0 : DB} {k : Nat} {xp : Int} {lvl : Nat}
    (now : Int) (acc : DB × Nat × List Event) (entry : Nat × SkillUpdateEntry)
    (hk : ¬ entry.1 = k) (h : xpLevelAt acc.1 k xp lvl) :
    xpLevelAt (bulkSkillStep db0 now acc entry).1 k xp lvl := by
  unfold bulkSkillStep
  dsimp only
  split
  · exact h
  · split
    · split
      · exact xpLevelAt_bulkCascade _ _
          (xpLevelAt_updateSkillRow_ne _ _ (fun s => rfl) hk h)
      · exact xpLevelAt_updateSkillRow_ne _ _ (fun s => rfl) hk h
    · split
      · exact xpLevelAt_bulkCascade _ _
          (xpLevelAt_updateSkillRow_ne _ _ (fun s => rfl) hk h)
      · exact xpLevelAt_updateSkillRow_ne _ _ (fun s => rfl) hk h

lemma xpLevelAt_bulkSkillFold_ne {db0 : DB} {k : Nat} {xp : Int} {lvl : Nat}
    (now : Int) (entries : List (Nat × SkillUpdateEntry)) (acc : DB × Nat × List Event)
    (hk : ∀ p ∈ entries, ¬ p.1 = k) (h : xpLevelAt acc.1 k xp lvl) :
    xpLevelAt (entries.foldl (bulkSkillStep db0 now) acc).1 k xp lvl :=
  foldl_preserves_mem (fun a => xpLevelAt a.1 k xp lvl) _ entries acc h
    (fun a x hx ha => xpLevelAt_bulkSkillStep_ne now a x (hk x hx) ha)

lemma skillPresent_updateSkillRow {dbx : DB} {k : Nat} (i : Nat) (f : Skill → Skill)
    (hf : ∀ s, (f s).id = s.id) (h : (skillFind dbx k).isSome = true) :
    (skillFind (updateSkillRow dbx i f) k).isSome = true := by
  rw [skillFind_isSome_updateSkillRow dbx i f hf k]
  exact h

lemma skillPresent_bulkUnlockStep (k skillId : Nat) (now : Int) (dbF : DB)
    (acc : DB × List Event) (e : Skill)
    (h : (skillFind acc.1 k).isSome = true) :
    (skillFind (bulkUnlockStep skillId now dbF acc e).1 k).isSome = true := by
  unfold bulkUnlockStep
  dsimp only
  split
  · refine skillPresent_updateSkillRow _ _ ?_ h
    intro s
    rfl
  · exact h

lemma skillPresent_bulkCascade {dbx : DB} (k skillId : Nat) (now : Int)
    (h : (skillFind dbx k).isSome = true) :
    (skillFind (bulkCascade dbx skillId now).1 k).isSome = true := by
  unfold bulkCascade
  exact foldl_preserves (fun acc => (skillFind acc.1 k).isSome = true) _ _ (dbx, []) h
    (fun a x ha => skillPresent_bulkUnlockStep k skillId now dbx a x ha)

lemma skillPresent_bulkSkillStep {db0 : DB} (k : Nat) (now : Int)
    (acc : DB × Nat × List Event) (entry : Nat × SkillUpdateEntry)
    (h : (skillFind acc.1 k).isSome = true) :
    (skillFind (bulkSkillStep db0 now acc entry).1 k).isSome = true := by
  unfold bulkSkillStep
  dsimp only
  split
  · exact h
  · split
    · split
      · refine skillPresent_bulkCascade _ _ _ ?_
        refine skillPresent_updateSkillRow _ _ ?_ h
        intro s
        rfl
      · refine skillPresent_updateSkillRow _ _ ?_ h
        intro s
        rfl
    · split
      · refine skillPresent_bulkCascade _ _ _ ?_
        refine skillPresent_updateSkillRow _ _ ?_ h
        intro s
        rfl
      · refine skillPresent_updateSkillRow _ _ ?_ h
        intro s
        rfl

lemma skillPresent_bulkSkillFold {db0 : DB} (k : Nat) (now : Int)
    (entries : List (Nat × SkillUpdateEntry)) (acc : DB × Nat × List Event)
    (h : (skillFind acc.1 k).isSome = true) :
    (skillFind (entries.foldl (bulkSkillStep db0 now) acc).1 k).isSome = true :=
  foldl_preserves (fun a => (skillFind a.1 k).isSome = true) _ entries acc h
    (fun a x ha => skillPresent_bulkSkillStep k now a x ha)

/-- The per-skill write of `bulkSkillStep` at entry `(k, v)` leaves row
`k` holding `v.currentXP` and the level recomputed from it against the
snapshot row's `maxLevel` — and the trailing cascade does not disturb
either field. -/
lemma xpLevelAt_bulkSkillStep_self (db0 : DB) (now : Int) (acc : DB × Nat × List Event)
    (k : Nat) (v : SkillUpdateEntry) (s : Skill)
    (hs : skillFind db0 k = some s)
    (hp : (skillFind acc.1 k).isSome = true) :
    xpLevelAt (bulkSkillStep db0 now acc (k, v)).1 k v.currentXP
      (calculateSkillLevel v.currentXP s.maxLevel) := by
  obtain ⟨r0, hr0⟩ := Option.isSome_iff_exists.mp hp
  have hrid : r0.id = k := skillFind_id _ _ _ hr0
  have hbase : ∀ (st : SkillStatus) (ca : Option Int) (xtn : Int),
      xpLevelAt (updateSkillRow acc.1 k (fun r =>
        { r with currentXP := v.currentXP,
                 currentLevel := calculateSkillLevel v.currentXP s.maxLevel,
                 status := st, completedAt := ca, xpToNextLevel := xtn })) k
        v.currentXP (calculateSkillLevel v.currentXP s.maxLevel) := by
    intro st ca xtn
    refine ⟨{ r0 with
                currentXP := v.currentXP,
                currentLevel := calculateSkillLevel v.currentXP s.maxLevel,
                status := st, completedAt := ca, xpToNextLevel := xtn }, ?_, rfl, rfl⟩
    rw [skillFind_updateSkillRow acc.1 k (fun r =>
      { r with currentXP := v.currentXP,
               currentLevel := calculateSkillLevel v.currentXP s.maxLevel,
               status := st, completedAt := ca, xpToNextLevel := xtn })
      (fun r => rfl) k, hr0]
    show some (if r0.id = k then _ else r0) = _
    rw [if_pos hrid]
  unfold bulkSkillStep
  dsimp only
  split
  · next hrow =>
    rw [hs] at hrow
    cases hrow
  · next skl hrow =>
    rw [hs] at hrow
    cases Option.some.inj hrow
    split
    · split
      · exact xpLevelAt_bulkCascade _ _ (hbase _ _ _)
      · exact hbase _ _ _
    · split
      · exact xpLevelAt_bulkCascade _ _ (hbase _ _ _)
      · exact hbase _ _ _

-- ===========================================================================
-- Keys of the grouping map and their multiplicity
-- ===========================================================================

lemma mapSet_mem (m : List (Nat × SkillUpdateEntry)) (k : Nat) (v : SkillUpdateEntry) :
    ∀ q ∈ mapSet m k v, q ∈ m ∨ q.1 = k := by
  unfold mapSet
  split
  · intro q hq
    obtain ⟨p, hp, hpq⟩ := List.mem_map.mp hq
    by_cases hpk : p.1 = k
    · right
      rw [← hpq, if_pos hpk]
    · left
      rw [← hpq, if_neg hpk]
      exact hp
  · intro q hq
    rcases List.mem_append.mp hq with h | h
    · exact Or.inl h
    · simp only [List.mem_singleton] at h
      right
      rw [h]

lemma keys_map_set (m : List (Nat × SkillUpdateEntry)) (k : Nat) (v : SkillUpdateEntry) :
    (m.map (fun p => if p.1 = k then (k, v) else p)).map (·.1) = m.map (·.1) := by
  induction m with
  | nil => rfl
  | cons p m ih =>
    by_cases hpk : p.1 = k
    · simp [List.map_cons, if_pos hpk, ih, hpk]
    · simp [List.map_cons, if_neg hpk, ih]

lemma mapSet_keys_nodup (m : List (Nat × SkillUpdateEntry)) (k : Nat)
    (v : SkillUpdateEntry) (h : (m.map (·.1)).Nodup) :
    ((mapSet m k v).map (·.1)).Nodup := by
  unfold mapSet
  split
  · rw [keys_map_set]
    exact h
  · next hany =>
    rw [List.map_append]
    rw [List.nodup_append]
    refine ⟨h, List.nodup_singleton k, ?_⟩
    intro a ha hb
    simp only [List.map_cons, List.map_nil, List.mem_singleton] at hb
    subst hb
    obtain ⟨p, hp, hpk⟩ := List.mem_map.mp ha
    exact hany (List.any_eq_true.mpr ⟨p, hp, by simp [hpk]⟩)

lemma groupStep_keys_nodup (db0 : DB) (inc : List Task)
    (acc : List (Nat × SkillUpdateEntry)) (t : Task)
    (h : (acc.map (·.1)).Nodup) :
    ((groupStep db0 inc acc t).map (·.1)).Nodup := by
  unfold groupStep
  split
  · exact h
  · exact mapSet_keys_nodup _ _ _ h

lemma group_fold_keys_nodup (db0 : DB) (inc l : List Task) :
    ((l.foldl (groupStep db0 inc) []).map (·.1)).Nodup :=
  foldl_preserves (fun acc => (acc.map (·.1)).Nodup) _ l [] List.nodup_nil
    (fun acc t ha => groupStep_keys_nodup db0 inc acc t ha)

lemma groupStep_keys_present (db0 : DB) (inc : List Task)
    (acc : List (Nat × SkillUpdateEntry)) (t : Task)
    (h : ∀ p ∈ acc, (skillFind db0 p.1).isSome = true) :
    ∀ p ∈ groupStep db0 inc acc t, (skillFind db0 p.1).isSome = true := by
  unfold groupStep
  split
  · exact h
  · next skl hrow =>
    intro p hp
    rcases mapSet_mem _ _ _ p hp with hmem | hkey
    · exact h p hmem
    · have hid : skl.id = t.skillId := skillFind_id db0 t.skillId skl hrow
      rw [hkey, hid, hrow]
      rfl

lemma group_fold_keys_present (db0 : DB) (inc l : List Task) :
    ∀ p ∈ l.foldl (groupStep db0 inc) [], (skillFind db0 p.1).isSome = true :=
  foldl_preserves (fun acc => ∀ p ∈ acc, (skillFind db0 p.1).isSome = true) _ l []
    (fun p hp => absurd hp (List.not_mem_nil p))
    (fun acc t ha => groupStep_keys_present db0 inc acc t ha)

lemma countP_key_eq_zero (m : List (Nat × SkillUpdateEntry)) (k : Nat)
    (h : ∀ p ∈ m, ¬ p.1 = k) : m.countP (fun p => p.1 = k) = 0 := by
  rw [List.countP_eq_zero]
  intro p hp
  simp only [decide_eq_true_eq]
  exact h p hp

lemma mapGet_eq_some_mem (m : List (Nat × SkillUpdateEntry)) (k : Nat)
    (v : SkillUpdateEntry) (h : mapGet m k = some v) : (k, v) ∈ m := by
  unfold mapGet at h
  cases hf : m.find? (fun p => p.1 = k) with
  | none =>
    rw [hf] at h
    cases h
  | some q =>
    rw [hf] at h
    obtain ⟨q1, q2⟩ := q
    have hq1 := List.find?_some hf
    simp only [decide_eq_true_eq] at hq1
    have hq2 : q2 = v := Option.some.inj h
    subst hq1
    subst hq2
    exact List.mem_of_find?_eq_some hf

lemma mapGet_eq_none_keys (m : List (Nat × SkillUpdateEntry)) (k : Nat)
    (h : mapGet m k = none) : ∀ p ∈ m, ¬ p.1 = k := by
  unfold mapGet at h
  intro p hp hpk
  cases hf : m.find? (fun p => p.1 = k) with
  | none =>
    have := List.find?_eq_none.mp hf p hp
    simp only [decide_eq_true_eq] at this
    exact this hpk
  | some q =>
    rw [hf] at h
    cases h

lemma countP_key_eq_one (m : List (Nat × SkillUpdateEntry)) (k : Nat)
    (v : SkillUpdateEntry) (hnd : (m.map (·.1)).Nodup) (hmem : (k, v) ∈ m) :
    m.countP (fun p => p.1 = k) = 1 := by
  obtain ⟨l1, l2, rfl⟩ := List.append_of_mem hmem
  rw [List.countP_append, List.countP_cons]
  rw [List.map_append, List.map_cons, List.nodup_append] at hnd
  obtain ⟨h1, h2, hdisj⟩ := hnd
  have hk1 : ∀ p ∈ l1, ¬ p.1 = k := by
    intro p hp hpk
    exact hdisj (List.mem_map.mpr ⟨p, hp, hpk⟩) (by simp)
  have hk2 : ∀ p ∈ l2, ¬ p.1 = k := by
    intro p hp hpk
    have := (List.nodup_cons.mp h2).1
    exact this (List.mem_map.mpr ⟨p, hp, hpk⟩)
  rw [countP_key_eq_zero l1 k hk1, countP_key_eq_zero l2 k hk2]
  simp

-- ===========================================================================
-- Per-skill outcome of the bulk grouping + per-skill loop
-- ===========================================================================

/-- Row `k` after the bulk per-skill loop: if the batch contains a task
of skill `k`, the row holds the snapshot XP plus the whole batch's
aggregated reward for that skill, with the level recomputed from that
aggregate; otherwise the row's XP and level are untouched. -/
lemma bulk_entries_row (db txdb : DB) (now : Int) (inc : List Task)
    (htx : txdb.skills = db.skills) (k : Nat) (s : Skill)
    (hs : skillFind db k = some s) (c : Nat) (evs0 : List Event) :
    ((inc.any (fun t => t.skillId = k)) = true →
       xpLevelAt ((inc.foldl (groupStep db inc) []).foldl (bulkSkillStep db now)
           (txdb, c, evs0)).1 k
         (s.currentXP + batchXPList inc k)
         (calculateSkillLevel (s.currentXP + batchXPList inc k) s.maxLevel)) ∧
    ((inc.any (fun t => t.skillId = k)) = false →
       xpLevelAt ((inc.foldl (groupStep db inc) []).foldl (bulkSkillStep db now)
           (txdb, c, evs0)).1 k s.currentXP s.currentLevel) := by
  have htxk : skillFind txdb k = some s := by
    rw [skillFind_eq_of_skills htx k]
    exact hs
  have hget := (group_fold_get db inc k s hs inc []).1 rfl
  constructor
  · intro hany
    rw [if_pos hany] at hget
    obtain ⟨l1, l2, hdec⟩ :=
      List.append_of_mem (mapGet_eq_some_mem _ k _ hget)
    have hnd := group_fold_keys_nodup db inc inc
    rw [hdec] at hnd
    rw [List.map_append, List.map_cons, List.nodup_append] at hnd
    have hk2 : ∀ p ∈ l2, ¬ p.1 = k := by
      intro p hp hpk
      exact (List.nodup_cons.mp hnd.2.1).1 (List.mem_map.mpr ⟨p, hp, hpk⟩)
    rw [hdec, List.foldl_append, List.foldl_cons]
    refine xpLevelAt_bulkSkillFold_ne now l2 _ hk2 ?_
    exact xpLevelAt_bulkSkillStep_self db now _ k _ s hs
      (skillPresent_bulkSkillFold k now l1 (txdb, c, evs0) (by rw [htxk]; rfl))
  · intro hany
    rw [if_neg (by rw [hany]; exact Bool.false_ne_true)] at hget
    refine xpLevelAt_bulkSkillFold_ne now _ _ (mapGet_eq_none_keys _ k hget) ?_
    exact ⟨s, htxk, rfl, rfl⟩

/-- The per-skill loop emits exactly one progression write for skill `k`
when the batch touches it, and none otherwise. -/
lemma bulk_entries_countP (db txdb : DB) (now : Int) (inc : List Task)
    (k : Nat) (s : Skill) (hs : skillFind db k = some s) (c : Nat)
    (evs0 : List Event) :
    ((inc.foldl (groupStep db inc) []).foldl (bulkSkillStep db now)
        (txdb, c, evs0)).2.2.countP (updFor k) =
      evs0.countP (updFor k) +
        (if inc.any (fun t => t.skillId = k) then 1 else 0) := by
  rw [bulkSkillFold_countP db now k _ (txdb, c, evs0) (group_fold_keys_present db inc inc)]
  congr 1
  have hget := (group_fold_get db inc k s hs inc []).1 rfl
  by_cases hany : inc.any (fun t => t.skillId = k) = true
  · rw [if_pos hany]
    rw [if_pos hany] at hget
    exact countP_key_eq_one _ k _ (group_fold_keys_nodup db inc inc)
      (mapGet_eq_some_mem _ k _ hget)
  · rw [if_neg hany]
    rw [if_neg hany] at hget
    exact countP_key_eq_zero _ k (mapGet_eq_none_keys _ k hget)

-- ===========================================================================
-- Post-skill-loop stages of the bulk route: frames as composed equations
-- ===========================================================================

lemma skillFind_post_user_stage (A : DB) (uid : Nat) (fU : User → User) (a : Activity)
    (data : AchievementCheckData) (k : Nat) :
    skillFind (grantAchievements (createActivity (updateUserRow A uid fU) a)
      uid data).1 k = skillFind A k := by
  rw [skillFind_eq_of_skills (grantAchievements_skills _ _ _) k]
  rfl

lemma activities_post_user_stage (A : DB) (uid : Nat) (fU : User → User) (a : Activity)
    (data : AchievementCheckData) :
    (grantAchievements (createActivity (updateUserRow A uid fU) a)
      uid data).1.activities = A.activities ++ [a] := by
  rw [grantAchievements_activities]
  rfl

lemma tasks_post_user_stage (A : DB) (uid : Nat) (fU : User → User) (a : Activity)
    (data : AchievementCheckData) :
    (grantAchievements (createActivity (updateUserRow A uid fU) a)
      uid data).1.tasks = A.tasks := by
  rw [grantAchievements_tasks]
  rfl

lemma userFind_post_user_stage (A : DB) (uid : Nat) (fU : User → User)
    (hf : ∀ u, (fU u).id = u.id) (a : Activity) (data : AchievementCheckData) (j : Nat) :
    userFind (grantAchievements (createActivity (updateUserRow A uid fU) a)
      uid data).1 j = (userFind A j).map (fun u => if u.id = uid then fU u else u) := by
  rw [userFind_eq_of_users (grantAchievements_users _ _ _) j]
  show userFind (updateUserRow A uid fU) j = _
  exact userFind_updateUserRow A uid fU hf j

lemma users_bulk_fold (db0 : DB) (now : Int) (entries : List (Nat × SkillUpdateEntry))
    (txdb : DB) (c : Nat) (evs0 : List Event) :
    (entries.foldl (bulkSkillStep db0 now) (txdb, c, evs0)).1.users = txdb.users :=
  (utaFrame_bulkSkillFold now entries (txdb, c, evs0) (utaFrame_refl txdb)).1

lemma tasks_bulk_fold (db0 : DB) (now : Int) (entries : List (Nat × SkillUpdateEntry))
    (txdb : DB) (c : Nat) (evs0 : List Event) :
    (entries.foldl (bulkSkillStep db0 now) (txdb, c, evs0)).1.tasks = txdb.tasks :=
  (utaFrame_bulkSkillFold now entries (txdb, c, evs0) (utaFrame_refl txdb)).2.1

lemma activities_bulk_fold (db0 : DB) (now : Int)
    (entries : List (Nat × SkillUpdateEntry)) (txdb : DB) (c : Nat)
    (evs0 : List Event) :
    (entries.foldl (bulkSkillStep db0 now) (txdb, c, evs0)).1.activities =
      txdb.activities :=
  (utaFrame_bulkSkillFold now entries (txdb, c, evs0) (utaFrame_refl txdb)).2.2

lemma grantAchievements_countP_updFor (dbx : DB) (uid : Nat)
    (data : AchievementCheckData) (k : Nat) :
    (grantAchievements dbx uid data).2.2.countP (updFor k) = 0 := by
  rw [List.countP_eq_zero]
  intro x hx
  rcases grantAchievements_events_mem dbx uid data x hx with ⟨i, hi⟩ | ⟨i, hi⟩
  · rw [hi]
    exact Bool.false_ne_true
  · rw [hi]
    exact Bool.false_ne_true

-- ===========================================================================
-- C7.  Bulk completion: no evaluator call, one aggregated skill update
-- per affected skill, one aggregated activity record.
-- ===========================================================================

/-- C7: a successful `completeTasksBulk` run never calls the
quality-evaluation collaborator (the awarded total is the plain sum of
the eligible tasks' base `xpReward`s); it appends exactly one aggregated
`TASK_COMPLETE` activity record for the whole batch; and for every skill
touched by the batch it emits exactly one skill-progression write, whose
row carries the XP aggregated over all of that skill's batch tasks with
the level recomputed from that aggregate (never per task from a stale
base). -/
theorem bulk_no_eval_one_update_one_activity
    (db : DB) (uid : Nat) (ids : List Nat) (now : Int)
    (db' : DB) (evs : List Event) (res : BulkResult)
    (hrun : completeTasksBulk db uid ids now = (db', evs, Except.ok res)) :
    Event.evalCall ∉ evs ∧
    res.totalXP = ((db.tasks.filter (eligibleTask db uid ids)).map
      (fun t => (t.xpReward : Int))).sum ∧
    db'.activities = db.activities ++
      [{ type := ActivityType.TASK_COMPLETE, userId := uid, skillId := none,
         taskId := none,
         xpGained := res.totalXP,
         description := "Completed " ++
           toString (db.tasks.filter (eligibleTask db uid ids)).length ++
           " tasks in bulk" }] ∧
    ∀ k s, skillFind db k = some s →
      (db.tasks.filter (eligibleTask db uid ids)).any (fun t => t.skillId = k) = true →
      evs.countP (updFor k) = 1 ∧
      ∃ row, skillFind db' k = some row ∧
        row.currentXP = s.currentXP +
          batchXPList (db.tasks.filter (eligibleTask db uid ids)) k ∧
        row.currentLevel = calculateSkillLevel
          (s.currentXP + batchXPList (db.tasks.filter (eligibleTask db uid ids)) k)
          s.maxLevel := by
  have hinc : (db.tasks.filter (fun t =>
        (ids.contains t.id ∧ taskOwner db t = some uid : Bool))).filter
        (fun t => (t.completedAt = none : Bool)) =
      db.tasks.filter (eligibleTask db uid ids) := by
    rw [filter_pair]
    rfl
  rw [← hinc]
  unfold completeTasksBulk at hrun
  dsimp only at hrun
  split at hrun
  · simp at hrun
  split at hrun
  · simp at hrun
  split at hrun
  · simp at hrun
  split at hrun
  · simp at hrun
  next user huser =>
    simp only [Prod.mk.injEq, Except.ok.injEq] at hrun
    obtain ⟨hdb, hevs, hres⟩ := hrun
    subst hdb
    subst hevs
    subst hres
    refine ⟨?_, ?_, ?_, ?_⟩
    · intro hmem
      simp only [List.mem_append, List.mem_singleton] at hmem
      rcases hmem with (((h | h) | h) | h) | h
      · exact Event.noConfusion h
      · rcases bulkSkillFold_events_mem _ _ _ _ _ h with h2 | h2
        · exact absurd h2 (List.not_mem_nil _)
        · exact Bool.false_ne_true h2
      · exact Event.noConfusion h
      · exact Event.noConfusion h
      · rcases grantAchievements_events_mem _ _ _ _ h with ⟨i, hi⟩ | ⟨i, hi⟩
        · exact Event.noConfusion hi
        · exact Event.noConfusion hi
    · dsimp only
      rw [foldl_add_eq_sum]
      rw [zero_add]
    · rw [activities_post_user_stage]
      rw [activities_bulk_fold]
    · intro k s hsk hany
      constructor
      · rw [List.countP_append, List.countP_append, List.countP_append,
          List.countP_append, bulk_entries_countP db _ now _ k s hsk 0 [],
          if_pos hany, grantAchievements_countP_updFor]
        simp [List.countP_cons, updFor]
      · rw [skillFind_post_user_stage]
        exact (bulk_entries_row db _ now _ (by rfl) k s hsk 0 []).1 hany

/-- A concrete bulk run: both tasks of skill A completed in one batch. -/
def bulkOutW : DB × List Event × Except BulkError BulkResult :=
  completeTasksBulk dbC2 1 [11, 12] 0

/-- The `ok` payload of `bulkOutW` (the error fallback is never hit). -/
def bulkResW : BulkResult :=
  match bulkOutW.2.2 with
  | Except.ok r => r
  | Except.error _ =>
    { tasksCompleted := 0, totalXP := 0, newUserLevel := 0, newUserTotalXP := 0,
      skillsUpdated := 0, currentStreak := 0, longestStreak := 0,
      newAchievements := [] }

/-- Witness for C7: the theorem applied to the concrete batch
`[11, 12]` of `dbC2`, the run hypothesis discharged by evaluation. -/
theorem bulk_no_eval_one_update_one_activity_witness :
    completeTasksBulk dbC2 1 [11, 12] 0 =
      (bulkOutW.1, bulkOutW.2.1, Except.ok bulkResW) ∧
    (Event.evalCall ∉ bulkOutW.2.1 ∧
     bulkResW.totalXP = ((dbC2.tasks.filter (eligibleTask dbC2 1 [11, 12])).map
       (fun t => (t.xpReward : Int))).sum ∧
     bulkOutW.1.activities = dbC2.activities ++
       [{ type := ActivityType.TASK_COMPLETE, userId := 1, skillId := none,
          taskId := none, xpGained := bulkResW.totalXP,
          description := "Completed " ++
            toString (dbC2.tasks.filter (eligibleTask dbC2 1 [11, 12])).length ++
            " tasks in bulk" }] ∧
     ∀ k s, skillFind dbC2 k = some s →
       (dbC2.tasks.filter (eligibleTask dbC2 1 [11, 12])).any
         (fun t => t.skillId = k) = true →
       bulkOutW.2.1.countP (updFor k) = 1 ∧
       ∃ row, skillFind bulkOutW.1 k = some row ∧
         row.currentXP = s.currentXP +
           batchXPList (dbC2.tasks.filter (eligibleTask dbC2 1 [11, 12])) k ∧
         row.currentLevel = calculateSkillLevel
           (s.currentXP +
             batchXPList (dbC2.tasks.filter (eligibleTask dbC2 1 [11, 12])) k)
           s.maxLevel) :=
  ⟨by decide,
   bulk_no_eval_one_update_one_activity dbC2 1 [11, 12] 0 _ _ _ (by decide)⟩

-- ===========================================================================
-- C8 infrastructure: XP non-negativity and per-stage row frames
-- ===========================================================================

lemma sum_xp_nonneg (l : List Task) :
    0 ≤ (l.map (fun t => (t.xpReward : Int))).sum := by
  induction l with
  | nil => simp
  | cons t l ih =>
    rw [List.map_cons, List.sum_cons]
    exact add_nonneg (Int.natCast_nonneg _) ih

lemma batch_total_nonneg (l : List Task) :
    0 ≤ l.foldl (fun sum t => sum + (t.xpReward : Int)) 0 := by
  rw [foldl_add_eq_sum, zero_add]
  exact sum_xp_nonneg l

lemma batchXPList_nonneg (l : List Task) (k : Nat) : 0 ≤ batchXPList l k :=
  sum_xp_nonneg (l.filter (fun t => t.skillId = k))

/-- Trivial monotonicity when the store is returned unchanged. -/
lemma mono_refl_db (db : DB) :
    (∀ j u u', userFind db j = some u → userFind db j = some u' →
       u.totalXP ≤ u'.totalXP) ∧
    (∀ k s s', skillFind db k = some s → skillFind db k = some s' →
       s.currentXP ≤ s'.currentXP) := by
  constructor
  · intro j u u' h1 h2
    rw [h1] at h2
    cases Option.some.inj h2
    exact le_refl _
  · intro k s s' h1 h2
    rw [h1] at h2
    cases Option.some.inj h2
    exact le_refl _

lemma userFind_createActivity (X : DB) (a : Activity) (j : Nat) :
    userFind (createActivity X a) j = userFind X j := rfl

lemma userFind_ite_createActivity (c : Prop) [Decidable c] (X : DB) (a : Activity)
    (j : Nat) : userFind (if c then createActivity X a else X) j = userFind X j := by
  split <;> rfl

lemma userFind_skill_task_stages (db : DB) (tid : Nat) (g : Task → Task) (i : Nat)
    (f : Skill → Skill) (j : Nat) :
    userFind (updateSkillRow (updateTaskRow db tid g) i f) j = userFind db j := rfl

lemma userFind_unlockStepSingle (acc : DB × List Nat × List Event) (e : Skill)
    (j : Nat) : userFind (unlockStepSingle acc e).1 j = userFind acc.1 j := by
  unfold unlockStepSingle
  dsimp only
  split
  · rfl
  · split <;> rfl

lemma userFind_unlockDependentsSingle (dbx : DB) (deps : List Skill) (j : Nat) :
    userFind (unlockDependentsSingle dbx deps).1 j = userFind dbx j := by
  unfold unlockDependentsSingle
  exact foldl_preserves (fun a => userFind a.1 j = userFind dbx j) _ deps
    (dbx, [], []) rfl
    (fun a x ha => (userFind_unlockStepSingle a x j).trans ha)

/-- The user write followed by the achievement grants, as one equation on
`userFind` (the grants never touch the `users` relation). -/
lemma userFind_grant_update (X : DB) (uid : Nat) (tXP : Int) (lvl cs ls : Nat)
    (la : Option Int) (data : AchievementCheckData) (j : Nat) :
    userFind (grantAchievements (updateUserRow X uid (fun u =>
      { u with totalXP := tXP, level := lvl, currentStreak := cs,
               longestStreak := ls, lastActiveAt := la })) uid data).1 j =
      (userFind X j).map (fun u => if u.id = uid then
        { u with totalXP := tXP, level := lvl, currentStreak := cs,
                 longestStreak := ls, lastActiveAt := la } else u) := by
  rw [userFind_eq_of_users (grantAchievements_users _ _ _) j]
  exact userFind_updateUserRow X uid (fun u =>
    { u with totalXP := tXP, level := lvl, currentStreak := cs,
             longestStreak := ls, lastActiveAt := la }) (fun u => rfl) j

lemma skillFind_createActivity (X : DB) (a : Activity) (k : Nat) :
    skillFind (createActivity X a) k = skillFind X k := rfl

lemma skillFind_ite_createActivity (c : Prop) [Decidable c] (X : DB) (a : Activity)
    (k : Nat) : skillFind (if c then createActivity X a else X) k = skillFind X k := by
  split <;> rfl

lemma skillFind_post_single (X : DB) (uid : Nat) (fU : User → User)
    (data : AchievementCheckData) (k : Nat) :
    skillFind (grantAchievements (updateUserRow X uid fU) uid data).1 k =
      skillFind X k := by
  rw [skillFind_eq_of_skills (grantAchievements_skills _ _ _) k]
  rfl

/-- The single route's task write followed by its skill write, as one
equation on `skillFind`. -/
lemma skillFind_single_write (db : DB) (tid : Nat) (g : Task → Task) (i : Nat)
    (xp : Int) (lvl : Nat) (st : SkillStatus) (ca : Option Int) (xtn : Int)
    (k : Nat) :
    skillFind (updateSkillRow (updateTaskRow db tid g) i (fun s =>
      { s with currentXP := xp, currentLevel := lvl, status := st,
               completedAt := ca, xpToNextLevel := xtn })) k =
      (skillFind db k).map (fun s => if s.id = i then
        { s with currentXP := xp, currentLevel := lvl, status := st,
                 completedAt := ca, xpToNextLevel := xtn } else s) :=
  skillFind_updateSkillRow (updateTaskRow db tid g) i (fun s =>
    { s with currentXP := xp, currentLevel := lvl, status := st,
             completedAt := ca, xpToNextLevel := xtn }) (fun s => rfl) k

lemma xpLevelAt_unlockStepSingle {k : Nat} {xp : Int} {lvl : Nat}
    (acc : DB × List Nat × List Event) (e : Skill)
    (h : xpLevelAt acc.1 k xp lvl) : xpLevelAt (unlockStepSingle acc e).1 k xp lvl := by
  unfold unlockStepSingle
  dsimp only
  split
  · exact h
  · split
    · exact xpLevelAt_updateSkillRow_pres _ _ (fun s => rfl) (fun s => rfl)
        (fun s => rfl) h
    · exact h

lemma xpLevelAt_unlockDependentsSingle {dbx : DB} {k : Nat} {xp : Int} {lvl : Nat}
    (deps : List Skill) (h : xpLevelAt dbx k xp lvl) :
    xpLevelAt (unlockDependentsSingle dbx deps).1 k xp lvl := by
  unfold unlockDependentsSingle
  exact foldl_preserves (fun a => xpLevelAt a.1 k xp lvl) _ deps (dbx, [], []) h
    (fun a x ha => xpLevelAt_unlockStepSingle a x ha)

lemma userFind_bulk_fold_tx (db0 : DB) (now : Int)
    (entries : List (Nat × SkillUpdateEntry)) (dbOrig : DB) (tasksNew : List Task)
    (c : Nat) (evs0 : List Event) (j : Nat) :
    userFind (entries.foldl (bulkSkillStep db0 now)
        ({ dbOrig with tasks := tasksNew }, c, evs0)).1 j = userFind dbOrig j := by
  rw [userFind_eq_of_users (users_bulk_fold _ _ _ _ _ _) j]
  rfl

lemma userFind_bulk_user_stage (X : DB) (uid : Nat) (tXP : Int) (lvl cs ls : Nat)
    (la : Option Int) (a : Activity) (data : AchievementCheckData) (j : Nat) :
    userFind (grantAchievements (createActivity (updateUserRow X uid (fun u =>
      { u with totalXP := tXP, level := lvl, currentStreak := cs,
               longestStreak := ls, lastActiveAt := la })) a) uid data).1 j =
      (userFind X j).map (fun u => if u.id = uid then
        { u with totalXP := tXP, level := lvl, currentStreak := cs,
                 longestStreak := ls, lastActiveAt := la } else u) := by
  rw [userFind_eq_of_users (grantAchievements_users _ _ _) j]
  exact userFind_updateUserRow X uid (fun u =>
    { u with totalXP := tXP, level := lvl, currentStreak := cs,
             longestStreak := ls, lastActiveAt := la }) (fun u => rfl) j

lemma bulk_fold_skill_mono (db : DB) (now : Int) (inc : List Task)
    (tasksNew : List Task) (c : Nat) (evs0 : List Event) (k : Nat) (s s' : Skill)
    (hsk : skillFind db k = some s)
    (hs' : skillFind ((inc.foldl (groupStep db inc) []).foldl (bulkSkillStep db now)
        ({ db with tasks := tasksNew }, c, evs0)).1 k = some s') :
    s.currentXP ≤ s'.currentXP := by
  have hpair := bulk_entries_row db { db with tasks := tasksNew } now inc rfl k s hsk c evs0
  rcases Bool.eq_false_or_eq_true (inc.any (fun t => t.skillId = k)) with hany | hany
  · obtain ⟨row, hfind, hxv, hlv⟩ := hpair.1 hany
    rw [hfind] at hs'
    cases Option.some.inj hs'
    rw [hxv]
    have hb := batchXPList_nonneg inc k
    omega
  · obtain ⟨row, hfind, hxv, hlv⟩ := hpair.2 hany
    rw [hfind] at hs'
    cases Option.some.inj hs'
    exact le_of_eq hxv.symm

lemma userFind_updateTaskRow_frame (X : DB) (i : Nat) (g : Task → Task) (j : Nat) :
    userFind (updateTaskRow X i g) j = userFind X j := rfl

lemma userFind_updateSkillRow_frame (X : DB) (i : Nat) (f : Skill → Skill) (j : Nat) :
    userFind (updateSkillRow X i f) j = userFind X j := rfl

lemma skillFind_updateTaskRow_frame (X : DB) (i : Nat) (g : Task → Task) (k : Nat) :
    skillFind (updateTaskRow X i g) k = skillFind X k := rfl

lemma skillFind_write5 (db : DB) (i : Nat) (xp : Int) (lvl : Nat) (st : SkillStatus)
    (ca : Option Int) (xtn : Int) (k : Nat) :
    skillFind (updateSkillRow db i (fun s =>
      { s with currentXP := xp, currentLevel := lvl, status := st,
               completedAt := ca, xpToNextLevel := xtn })) k =
      (skillFind db k).map (fun s => if s.id = i then
        { s with currentXP := xp, currentLevel := lvl, status := st,
                 completedAt := ca, xpToNextLevel := xtn } else s) :=
  skillFind_updateSkillRow db i (fun s =>
    { s with currentXP := xp, currentLevel := lvl, status := st,
             completedAt := ca, xpToNextLevel := xtn }) (fun s => rfl) k

-- ===========================================================================
-- C8 (amended).  XP monotonicity under non-negative evaluations
-- ===========================================================================

/-- C8 (amended): after any successful single completion, the user's
`totalXP` and every skill's `currentXP` are non-decreasing, provided
every evaluation outcome consulted carries a non-negative `suggestedXP`
(the zod schema does not enforce this); the bulk route satisfies the
same monotonicity unconditionally, on every path, since it never calls
the evaluator and awards only base rewards. -/
theorem xp_monotonicity_amended :
    (∀ (db : DB) (uid tid : Nat) (sub notes : Option String)
       (ev : Option TaskEvaluation) (now : Int) (d2 : DB) (evs : List Event)
       (res : CompletionResult),
       completeTask db uid tid sub notes ev now = (d2, evs, Except.ok res) →
       (∀ e, ev = some e → 0 ≤ e.suggestedXP) →
       (∀ j u u', userFind db j = some u → userFind d2 j = some u' →
          u.totalXP ≤ u'.totalXP) ∧
       (∀ k s s', skillFind db k = some s → skillFind d2 k = some s' →
          s.currentXP ≤ s'.currentXP)) ∧
    (∀ (db : DB) (uid : Nat) (ids : List Nat) (now : Int),
       (∀ j u u', userFind db j = some u →
          userFind (completeTasksBulk db uid ids now).1 j = some u' →
          u.totalXP ≤ u'.totalXP) ∧
       (∀ k s s', skillFind db k = some s →
          skillFind (completeTasksBulk db uid ids now).1 k = some s' →
          s.currentXP ≤ s'.currentXP)) := by
  constructor
  · intro db uid tid sub notes ev now d2 evs res hrun hev
    unfold completeTask at hrun
    dsimp only at hrun
    split at hrun
    · simp at hrun
    next task htask =>
    split at hrun
    · simp at hrun
    next skill hskill =>
    split at hrun
    · simp at hrun
    next tree htree =>
    by_cases hforb : tree.userId ≠ uid
    · rw [if_pos hforb] at hrun
      simp at hrun
    rw [if_neg hforb] at hrun
    by_cases halr : task.completedAt ≠ none
    · rw [if_pos halr] at hrun
      simp at hrun
    rw [if_neg halr] at hrun
    cases ev with
    | none =>
      dsimp only at hrun
      set xa : Int := (if sub.isSome = true then (task.xpReward : Int) else (task.xpReward : Int)) with hxa
      have hxa0 : 0 ≤ xa := by
        rw [hxa]
        split
        · exact Int.natCast_nonneg _
        · exact Int.natCast_nonneg _
      set qs : Option Int := (if sub.isSome = true then Option.map (fun x => x.qualityScore) (none : Option TaskEvaluation) else none) with hqs
      set af : Option String := (if sub.isSome = true then Option.map (fun x => x.feedback) (none : Option TaskEvaluation) else none) with haf
      set st : SkillStatus := (if ((db.tasks.filter (fun t => t.skillId = skill.id)).all
            (fun t => t.id = tid ∨ t.completedAt ≠ none)) = true ∧
            skill.status = SkillStatus.IN_PROGRESS then SkillStatus.COMPLETED
        else skill.status) with hst
      set db1X : DB := updateTaskRow db tid (fun t =>
        { t with completed := true, completedAt := some now, submission := sub,
                 notes := notes, qualityScore := qs, aiFeedback := af }) with hdb1
      set db2X : DB := updateSkillRow db1X skill.id (fun s =>
        { s with currentXP := skill.currentXP + xa,
                 currentLevel := calculateSkillLevel (skill.currentXP + xa) skill.maxLevel,
                 status := st,
                 completedAt := if st = SkillStatus.COMPLETED then some now else none,
                 xpToNextLevel :=
                   if calculateSkillLevel (skill.currentXP + xa) skill.maxLevel <
                       skill.maxLevel then
                     xpForSkillLevel
                       (calculateSkillLevel (skill.currentXP + xa) skill.maxLevel + 1)
                   else 0 }) with hdb2
      set unl : DB × List Nat × List Event :=
        (if st = SkillStatus.COMPLETED then
           unlockDependentsSingle db2X
             (db.skills.filter (fun s => s.prerequisiteIds.contains skill.id))
         else (db2X, [], [])) with hunl
      split at hrun
      · simp at hrun
      next user huser =>
      simp only [Prod.mk.injEq, Except.ok.injEq] at hrun
      obtain ⟨hd2, hevs2, hres2⟩ := hrun
      subst hd2
      have huserdb : userFind db uid = some user := by
        rw [hunl] at huser
        by_cases hcc : st = SkillStatus.COMPLETED
        · rw [if_pos hcc, userFind_unlockDependentsSingle, hdb2,
            userFind_updateSkillRow_frame, hdb1, userFind_updateTaskRow_frame] at huser
          exact huser
        · rw [if_neg hcc] at huser
          dsimp only at huser
          rw [hdb2, userFind_updateSkillRow_frame, hdb1,
            userFind_updateTaskRow_frame] at huser
          exact huser
      constructor
      · intro j u u' hju hju'
        rw [userFind_grant_update, userFind_ite_createActivity,
          userFind_ite_createActivity, userFind_createActivity, hunl] at hju'
        have hju2 : (userFind db j).map (fun u => if u.id = uid then
            { u with totalXP := user.totalXP + xa,
                     level := calculateUserLevel (user.totalXP + xa),
                     currentStreak := (calculateStreak user.lastActiveAt user.currentStreak
                       user.longestStreak now).currentStreak,
                     longestStreak := (calculateStreak user.lastActiveAt user.currentStreak
                       user.longestStreak now).longestStreak,
                     lastActiveAt := some now } else u) = some u' := by
          by_cases hcc : st = SkillStatus.COMPLETED
          · rw [if_pos hcc, userFind_unlockDependentsSingle, hdb2,
              userFind_updateSkillRow_frame, hdb1, userFind_updateTaskRow_frame] at hju'
            exact hju'
          · rw [if_neg hcc] at hju'
            dsimp only at hju'
            rw [hdb2, userFind_updateSkillRow_frame, hdb1,
              userFind_updateTaskRow_frame] at hju'
            exact hju'
        rw [hju] at hju2
        simp only [Option.map_some'] at hju2
        have hu' := (Option.some.inj hju2).symm
        by_cases hj : u.id = uid
        · rw [if_pos hj] at hu'
          have hjid : u.id = j := userFind_id db j u hju
          rw [hj] at hjid
          rw [← hjid] at hju
          rw [huserdb] at hju
          cases Option.some.inj hju
          rw [hu']
          dsimp only
          omega
        · rw [if_neg hj] at hu'
          rw [hu']
      · intro k s s' hsk hs'
        rw [skillFind_post_single, skillFind_ite_createActivity,
          skillFind_ite_createActivity, skillFind_createActivity, hunl] at hs'
        have hbase : ∃ xv lv, xpLevelAt db2X k xv lv ∧ s.currentXP ≤ xv := by
          by_cases hks : s.id = skill.id
          · have hsid : s.id = k := skillFind_id db k s hsk
            have hkk : k = skill.id := by rw [← hsid, hks]
            have hss : s = skill := by
              have hskid : skill.id = task.skillId :=
                skillFind_id db task.skillId skill hskill
              have h1 : skillFind db task.skillId = some s := by
                rw [← hskid, ← hkk]
                exact hsk
              rw [hskill] at h1
              exact (Option.some.inj h1).symm
            refine ⟨skill.currentXP + xa,
              calculateSkillLevel (skill.currentXP + xa) skill.maxLevel,
              ⟨{ s with
                   currentXP := skill.currentXP + xa,
                   currentLevel := calculateSkillLevel (skill.currentXP + xa) skill.maxLevel,
                   status := st,
                   completedAt := if st = SkillStatus.COMPLETED then some now else none,
                   xpToNextLevel :=
                     if calculateSkillLevel (skill.currentXP + xa) skill.maxLevel <
                         skill.maxLevel then
                       xpForSkillLevel
                         (calculateSkillLevel (skill.currentXP + xa) skill.maxLevel + 1)
                     else 0 }, ?_, rfl, rfl⟩, ?_⟩
            · rw [hdb2, skillFind_write5, hdb1, skillFind_updateTaskRow_frame, hsk]
              show some (if s.id = skill.id then _ else s) = _
              rw [if_pos hks]
            · rw [hss]
              omega
          · refine ⟨s.currentXP, s.currentLevel, ⟨s, ?_, rfl, rfl⟩, le_refl _⟩
            rw [hdb2, skillFind_write5, hdb1, skillFind_updateTaskRow_frame, hsk]
            show some (if s.id = skill.id then _ else s) = some s
            rw [if_neg hks]
        obtain ⟨xv, lv, hxl, hle⟩ := hbase
        by_cases hcc : st = SkillStatus.COMPLETED
        · rw [if_pos hcc] at hs'
          obtain ⟨row, hfind, hxv, hlv⟩ := xpLevelAt_unlockDependentsSingle
            (db.skills.filter (fun s2 => s2.prerequisiteIds.contains skill.id)) hxl
          rw [hfind] at hs'
          cases Option.some.inj hs'
          rw [hxv]
          exact hle
        · rw [if_neg hcc] at hs'
          dsimp only at hs'
          obtain ⟨row, hfind, hxv, hlv⟩ := hxl
          rw [hfind] at hs'
          cases Option.some.inj hs'
          rw [hxv]
          exact hle
    | some e =>
      dsimp only at hrun
      set xa : Int := (if sub.isSome = true then e.suggestedXP else (task.xpReward : Int)) with hxa
      have hxa0 : 0 ≤ xa := by
        rw [hxa]
        split
        · exact hev e rfl
        · exact Int.natCast_nonneg _
      set qs : Option Int := (if sub.isSome = true then Option.map (fun x => x.qualityScore) (some e) else none) with hqs
      set af : Option String := (if sub.isSome = true then Option.map (fun x => x.feedback) (some e) else none) with haf
      set st : SkillStatus := (if ((db.tasks.filter (fun t => t.skillId = skill.id)).all
            (fun t => t.id = tid ∨ t.completedAt ≠ none)) = true ∧
            skill.status = SkillStatus.IN_PROGRESS then SkillStatus.COMPLETED
        else skill.status) with hst
      set db1X : DB := updateTaskRow db tid (fun t =>
        { t with completed := true, completedAt := some now, submission := sub,
                 notes := notes, qualityScore := qs, aiFeedback := af }) with hdb1
      set db2X : DB := updateSkillRow db1X skill.id (fun s =>
        { s with currentXP := skill.currentXP + xa,
                 currentLevel := calculateSkillLevel (skill.currentXP + xa) skill.maxLevel,
                 status := st,
                 completedAt := if st = SkillStatus.COMPLETED then some now else none,
                 xpToNextLevel :=
                   if calculateSkillLevel (skill.currentXP + xa) skill.maxLevel <
                       skill.maxLevel then
                     xpForSkillLevel
                       (calculateSkillLevel (skill.currentXP + xa) skill.maxLevel + 1)
                   else 0 }) with hdb2
      set unl : DB × List Nat × List Event :=
        (if st = SkillStatus.COMPLETED then
           unlockDependentsSingle db2X
             (db.skills.filter (fun s => s.prerequisiteIds.contains skill.id))
         else (db2X, [], [])) with hunl
      split at hrun
      · simp at hrun
      next user huser =>
      simp only [Prod.mk.injEq, Except.ok.injEq] at hrun
      obtain ⟨hd2, hevs2, hres2⟩ := hrun
      subst hd2
      have huserdb : userFind db uid = some user := by
        rw [hunl] at huser
        by_cases hcc : st = SkillStatus.COMPLETED
        · rw [if_pos hcc, userFind_unlockDependentsSingle, hdb2,
            userFind_updateSkillRow_frame, hdb1, userFind_updateTaskRow_frame] at huser
          exact huser
        · rw [if_neg hcc] at huser
          dsimp only at huser
          rw [hdb2, userFind_updateSkillRow_frame, hdb1,
            userFind_updateTaskRow_frame] at huser
          exact huser
      constructor
      · intro j u u' hju hju'
        rw [userFind_grant_update, userFind_ite_createActivity,
          userFind_ite_createActivity, userFind_createActivity, hunl] at hju'
        have hju2 : (userFind db j).map (fun u => if u.id = uid then
            { u with totalXP := user.totalXP + xa,
                     level := calculateUserLevel (user.totalXP + xa),
                     currentStreak := (calculateStreak user.lastActiveAt user.currentStreak
                       user.longestStreak now).currentStreak,
                     longestStreak := (calculateStreak user.lastActiveAt user.currentStreak
                       user.longestStreak now).longestStreak,
                     lastActiveAt := some now } else u) = some u' := by
          by_cases hcc : st = SkillStatus.COMPLETED
          · rw [if_pos hcc, userFind_unlockDependentsSingle, hdb2,
              userFind_updateSkillRow_frame, hdb1, userFind_updateTaskRow_frame] at hju'
            exact hju'
          · rw [if_neg hcc] at hju'
            dsimp only at hju'
            rw [hdb2, userFind_updateSkillRow_frame, hdb1,
              userFind_updateTaskRow_frame] at hju'
            exact hju'
        rw [hju] at hju2
        simp only [Option.map_some'] at hju2
        have hu' := (Option.some.inj hju2).symm
        by_cases hj : u.id = uid
        · rw [if_pos hj] at hu'
          have hjid : u.id = j := userFind_id db j u hju
          rw [hj] at hjid
          rw [← hjid] at hju
          rw [huserdb] at hju
          cases Option.some.inj hju
          rw [hu']
          dsimp only
          omega
        · rw [if_neg hj] at hu'
          rw [hu']
      · intro k s s' hsk hs'
        rw [skillFind_post_single, skillFind_ite_createActivity,
          skillFind_ite_createActivity, skillFind_createActivity, hunl] at hs'
        have hbase : ∃ xv lv, xpLevelAt db2X k xv lv ∧ s.currentXP ≤ xv := by
          by_cases hks : s.id = skill.id
          · have hsid : s.id = k := skillFind_id db k s hsk
            have hkk : k = skill.id := by rw [← hsid, hks]
            have hss : s = skill := by
              have hskid : skill.id = task.skillId :=
                skillFind_id db task.skillId skill hskill
              have h1 : skillFind db task.skillId = some s := by
                rw [← hskid, ← hkk]
                exact hsk
              rw [hskill] at h1
              exact (Option.some.inj h1).symm
            refine ⟨skill.currentXP + xa,
              calculateSkillLevel (skill.currentXP + xa) skill.maxLevel,
              ⟨{ s with
                   currentXP := skill.currentXP + xa,
                   currentLevel := calculateSkillLevel (skill.currentXP + xa) skill.maxLevel,
                   status := st,
                   completedAt := if st = SkillStatus.COMPLETED then some now else none,
                   xpToNextLevel :=
                     if calculateSkillLevel (skill.currentXP + xa) skill.maxLevel <
                         skill.maxLevel then
                       xpForSkillLevel
                         (calculateSkillLevel (skill.currentXP + xa) skill.maxLevel + 1)
                     else 0 }, ?_, rfl, rfl⟩, ?_⟩
            · rw [hdb2, skillFind_write5, hdb1, skillFind_updateTaskRow_frame, hsk]
              show some (if s.id = skill.id then _ else s) = _
              rw [if_pos hks]
            · rw [hss]
              omega
          · refine ⟨s.currentXP, s.currentLevel, ⟨s, ?_, rfl, rfl⟩, le_refl _⟩
            rw [hdb2, skillFind_write5, hdb1, skillFind_updateTaskRow_frame, hsk]
            show some (if s.id = skill.id then _ else s) = some s
            rw [if_neg hks]
        obtain ⟨xv, lv, hxl, hle⟩ := hbase
        by_cases hcc : st = SkillStatus.COMPLETED
        · rw [if_pos hcc] at hs'
          obtain ⟨row, hfind, hxv, hlv⟩ := xpLevelAt_unlockDependentsSingle
            (db.skills.filter (fun s2 => s2.prerequisiteIds.contains skill.id)) hxl
          rw [hfind] at hs'
          cases Option.some.inj hs'
          rw [hxv]
          exact hle
        · rw [if_neg hcc] at hs'
          dsimp only at hs'
          obtain ⟨row, hfind, hxv, hlv⟩ := hxl
          rw [hfind] at hs'
          cases Option.some.inj hs'
          rw [hxv]
          exact hle
  · intro db uid ids now
    unfold completeTasksBulk
    dsimp only
    split
    · exact mono_refl_db db
    split
    · exact mono_refl_db db
    split
    · exact mono_refl_db db
    split
    · exact mono_refl_db db
    next user huser =>
    constructor
    · intro j u u' hju hju'
      rw [userFind_bulk_user_stage, userFind_bulk_fold_tx] at hju'
      rw [userFind_bulk_fold_tx] at huser
      rw [hju] at hju'
      simp only [Option.map_some'] at hju'
      have hu' := (Option.some.inj hju').symm
      by_cases hj : u.id = uid
      · rw [if_pos hj] at hu'
        have hjid : u.id = j := userFind_id db j u hju
        rw [hj] at hjid
        rw [← hjid] at hju
        rw [huser] at hju
        cases Option.some.inj hju
        rw [hu']
        dsimp only
        have hb := batch_total_nonneg ((db.tasks.filter (fun t =>
          (ids.contains t.id ∧ taskOwner db t = some uid : Bool))).filter
          (fun t => (t.completedAt = none : Bool)))
        omega
      · rw [if_neg hj] at hu'
        rw [hu']
    · intro k s s' hsk hs'
      rw [skillFind_post_user_stage] at hs'
      exact bulk_fold_skill_mono db now _ _ _ _ k s s' hsk hs'

/-- A positive evaluation outcome for the C8 witness. -/
def evalPos : TaskEvaluation :=
  { qualityScore := 8, suggestedXP := 60, feedback := "good" }

/-- A concrete successful single completion with submission and a
non-negative evaluation. -/
def singleOutPos : DB × List Event × Except CompletionError CompletionResult :=
  completeTask dbC2 1 11 (some "w") none (some evalPos) 0

/-- The `ok` payload of `singleOutPos` (the error fallback is never hit). -/
def singleResPos : CompletionResult :=
  match singleOutPos.2.2 with
  | Except.ok r => r
  | Except.error _ =>
    { xpAwarded := 0, qualityScore := none, aiFeedback := none,
      skill := { id := 0, currentXP := 0, currentLevel := 0,
                 status := SkillStatus.LOCKED, leveledUp := false },
      user := { totalXP := 0, level := 0, leveledUp := false, xpToNextLevel := 0,
                currentStreak := 0, longestStreak := 0, streakBroken := false },
      unlockedSkills := [], newAchievements := [] }

/-- The user row after `singleOutPos`. -/
def uPosRow : User :=
  match userFind singleOutPos.1 1 with
  | some u => u
  | none => userW

/-- Skill A's row after `singleOutPos`. -/
def sPosRow : Skill :=
  match skillFind singleOutPos.1 10 with
  | some s => s
  | none => skillA

/-- Witness for C8 (amended): the theorem applied to the concrete run
`singleOutPos`, all hypotheses discharged by evaluation. -/
theorem xp_monotonicity_amended_witness :
    completeTask dbC2 1 11 (some "w") none (some evalPos) 0 =
      (singleOutPos.1, singleOutPos.2.1, Except.ok singleResPos) ∧
    (∀ e, some evalPos = some e → 0 ≤ e.suggestedXP) ∧
    userW.totalXP ≤ uPosRow.totalXP ∧
    skillA.currentXP ≤ sPosRow.currentXP := by
  refine ⟨by decide, ?_, ?_, ?_⟩
  · intro e he
    cases Option.some.inj he
    decide
  · exact ((xp_monotonicity_amended.1 dbC2 1 11 (some "w") none (some evalPos) 0
      singleOutPos.1 singleOutPos.2.1 singleResPos (by decide)
      (fun e he => by cases Option.some.inj he; decide)).1) 1 userW uPosRow
      (by decide) (by decide)
  · exact ((xp_monotonicity_amended.1 dbC2 1 11 (some "w") none (some evalPos) 0
      singleOutPos.1 singleOutPos.2.1 singleResPos (by decide)
      (fun e he => by cases Option.some.inj he; decide)).2) 10 skillA sPosRow
      (by decide) (by decide)


-- ===========================================================================
-- C10.  Bulk eligibility filtering
-- ===========================================================================

/-- Whether a route result is a success response. -/
def isOk {ε α : Type} : Except ε α → Bool
  | Except.ok _ => true
  | Except.error _ => false

lemma taskFind_post_user_stage (A : DB) (uid : Nat) (fU : User → User) (a : Activity)
    (data : AchievementCheckData) (j : Nat) :
    taskFind (grantAchievements (createActivity (updateUserRow A uid fU) a)
      uid data).1 j = taskFind A j := by
  rw [taskFind_eq_of_tasks (grantAchievements_tasks _ _ _) j]
  rfl

lemma taskFind_bulk_fold (db0 : DB) (now : Int)
    (entries : List (Nat × SkillUpdateEntry)) (txdb : DB) (c : Nat)
    (evs0 : List Event) (j : Nat) :
    taskFind (entries.foldl (bulkSkillStep db0 now) (txdb, c, evs0)).1 j =
      taskFind txdb j :=
  taskFind_eq_of_tasks (tasks_bulk_fold _ _ _ _ _ _) j

/-- The bulk route's `updateMany` write, as an equation on `taskFind`. -/
lemma taskFind_map_complete (db : DB) (bids : List Nat) (now : Int) (j : Nat) :
    taskFind { db with tasks := db.tasks.map (fun t =>
        if bids.contains t.id = true then
          { t with completed := true, completedAt := some now } else t) } j =
      (taskFind db j).map (fun t =>
        if bids.contains t.id = true then
          { t with completed := true, completedAt := some now } else t) := by
  unfold taskFind
  refine find?_map_of_pred_preserved _ _ (fun t => ?_) _
  by_cases h : bids.contains t.id = true
  · rw [if_pos h]
  · rw [if_neg h]

/-- The batch-membership test of the `updateMany` write agrees with
eligibility on any row fetched from a store with distinct task ids. -/
lemma contains_batch_eq_eligible (db : DB) (uid : Nat) (ids : List Nat)
    (hnd : (db.tasks.map (fun t => t.id)).Nodup) (t : Task) (hmem : t ∈ db.tasks) :
    ((db.tasks.filter (eligibleTask db uid ids)).map (fun x => x.id)).contains t.id
      = eligibleTask db uid ids t := by
  by_cases helig : eligibleTask db uid ids t = true
  · rw [helig]
    exact List.elem_eq_true_of_mem
      (List.mem_map.mpr ⟨t, List.mem_filter.mpr ⟨hmem, helig⟩, rfl⟩)
  · have hf : eligibleTask db uid ids t = false := by
      rcases Bool.eq_false_or_eq_true (eligibleTask db uid ids t) with h | h
      · exact absurd h helig
      · exact h
    rw [hf]
    rcases Bool.eq_false_or_eq_true
      (((db.tasks.filter (eligibleTask db uid ids)).map (fun x => x.id)).contains t.id)
      with h | h
    · exfalso
      have hm : t.id ∈ (db.tasks.filter (eligibleTask db uid ids)).map (fun x => x.id) := by
        simpa using h
      obtain ⟨t2, ht2, hid⟩ := List.mem_map.mp hm
      have ht2mem : t2 ∈ db.tasks := List.mem_of_mem_filter ht2
      have ht2elig : eligibleTask db uid ids t2 = true := List.of_mem_filter ht2
      have heq : t2 = t := List.inj_on_of_nodup_map hnd ht2mem hmem hid
      rw [heq] at ht2elig
      rw [ht2elig] at hf
      cases hf
    · exact h

/-- A single AVAILABLE skill holding the 51-task batch. -/
def skillMany : Skill :=
  { id := 70, treeId := 1, name := "Many", currentXP := 0, currentLevel := 1,
    maxLevel := 5, status := .AVAILABLE, completedAt := none, unlockedAt := none,
    xpToNextLevel := 25, prerequisiteIds := [] }

/-- A store with 51 uncompleted caller-owned tasks (ids 100-150). -/
def dbMany : DB :=
  { users := [userW], trees := [treeW], skills := [skillMany],
    tasks := (List.range 51).map (fun i => mkTask (100 + i) 70 10),
    activities := [], achievements := [], userAchievements := [] }

/-- C10 (counterexample): a batch of 51 requested ids, every one of
which exists, is owned by the caller and is not yet completed, is
rejected outright by the zod bound (`invalidRequest`) with no mutation —
although the eligible subset is far from empty, contradicting the
claim's "fails only when that eligible subset is empty". -/
theorem bulk_over_fifty_rejected_despite_eligible :
    (dbMany.tasks.filter
      (eligibleTask dbMany 1 ((List.range 51).map (fun i => 100 + i)))).length = 51 ∧
    completeTasksBulk dbMany 1 ((List.range 51).map (fun i => 100 + i)) 0 =
      (dbMany, [], Except.error BulkError.invalidRequest) := by
  decide

/-- C10 (amended): for a request of 1-50 ids against a store with
distinct task ids, the bulk call succeeds exactly when the eligible
subset (existing, caller-owned, not yet completed) is non-empty and the
caller's user row exists; on success exactly the eligible rows are
completed and every other row (missing from the request, foreign-owned,
or already completed) is left untouched, with no NotFound / Forbidden /
AlreadyCompleted failure for the whole call. -/
theorem bulk_eligible_subset_amended
    (db : DB) (uid : Nat) (ids : List Nat) (now : Int)
    (hlen1 : 1 ≤ ids.length) (hlen2 : ids.length ≤ 50)
    (hnd : (db.tasks.map (fun t => t.id)).Nodup) :
    (isOk (completeTasksBulk db uid ids now).2.2 = true ↔
       db.tasks.filter (eligibleTask db uid ids) ≠ [] ∧
       (userFind db uid).isSome = true) ∧
    (isOk (completeTasksBulk db uid ids now).2.2 = true →
       ∀ j t, taskFind db j = some t →
         taskFind (completeTasksBulk db uid ids now).1 j =
           some (if eligibleTask db uid ids t = true then
                   { t with completed := true, completedAt := some now }
                 else t)) := by
  have hinc : (db.tasks.filter (fun t =>
        (ids.contains t.id ∧ taskOwner db t = some uid : Bool))).filter
        (fun t => (t.completedAt = none : Bool)) =
      db.tasks.filter (eligibleTask db uid ids) := by
    rw [filter_pair]
    rfl
  unfold completeTasksBulk
  rw [if_neg (by omega)]
  dsimp only
  by_cases hts : (db.tasks.filter (fun t =>
      (ids.contains t.id ∧ taskOwner db t = some uid : Bool))).length = 0
  · rw [if_pos hts]
    constructor
    · constructor
      · intro hok
        exact absurd hok Bool.false_ne_true
      · rintro ⟨hne, -⟩
        refine absurd ?_ hne
        rw [← hinc, List.length_eq_zero.mp hts]
        rfl
    · intro hok
      exact absurd hok Bool.false_ne_true
  rw [if_neg hts]
  by_cases hi0 : ((db.tasks.filter (fun t =>
      (ids.contains t.id ∧ taskOwner db t = some uid : Bool))).filter
      (fun t => (t.completedAt = none : Bool))).length = 0
  · rw [if_pos hi0]
    constructor
    · constructor
      · intro hok
        exact absurd hok Bool.false_ne_true
      · rintro ⟨hne, -⟩
        refine absurd ?_ hne
        rw [← hinc, List.length_eq_zero.mp hi0]
    · intro hok
      exact absurd hok Bool.false_ne_true
  rw [if_neg hi0]
  rw [userFind_bulk_fold_tx]
  cases huser : userFind db uid with
  | none =>
    dsimp only
    constructor
    · constructor
      · intro hok
        exact absurd hok Bool.false_ne_true
      · rintro ⟨-, hus⟩
        exact absurd hus Bool.false_ne_true
    · intro hok
      exact absurd hok Bool.false_ne_true
  | some user =>
    dsimp only
    constructor
    · constructor
      · intro _
        refine ⟨?_, rfl⟩
        intro hh
        rw [← hinc] at hh
        rw [hh] at hi0
        exact hi0 rfl
      · intro _
        rfl
    · intro _ j t ht
      rw [taskFind_post_user_stage, taskFind_bulk_fold, taskFind_map_complete, ht,
        hinc]
      simp only [Option.map_some']
      rw [contains_batch_eq_eligible db uid ids hnd t (taskFind_mem db j t ht)]

/-- Witness for C10 (amended): the theorem applied to `dbC2` with the
request `[11, 99]` — id 99 does not exist and is silently dropped, the
call succeeds, task 11 is completed and task 21 (not requested) is left
untouched. -/
theorem bulk_eligible_subset_amended_witness :
    (1 ≤ ([11, 99] : List Nat).length ∧ ([11, 99] : List Nat).length ≤ 50 ∧
     (dbC2.tasks.map (fun t => t.id)).Nodup) ∧
    isOk (completeTasksBulk dbC2 1 [11, 99] 0).2.2 = true ∧
    taskFind (completeTasksBulk dbC2 1 [11, 99] 0).1 11 =
      some (if eligibleTask dbC2 1 [11, 99] (mkTask 11 10 50) = true then
              { mkTask 11 10 50 with completed := true, completedAt := some 0 }
            else mkTask 11 10 50) ∧
    taskFind (completeTasksBulk dbC2 1 [11, 99] 0).1 21 =
      some (if eligibleTask dbC2 1 [11, 99] (mkTask 21 20 100) = true then
              { mkTask 21 20 100 with completed := true, completedAt := some 0 }
            else mkTask 21 20 100) := by
  have hmain := bulk_eligible_subset_amended dbC2 1 [11, 99] 0 (by decide) (by decide)
    (by decide)
  refine ⟨⟨by decide, by decide, by decide⟩, ?_, ?_, ?_⟩
  · exact hmain.1.mpr ⟨by decide, by decide⟩
  · exact hmain.2 (hmain.1.mpr ⟨by decide, by decide⟩) 11 (mkTask 11 10 50) (by decide)
  · exact hmain.2 (hmain.1.mpr ⟨by decide, by decide⟩) 21 (mkTask 21 20 100) (by decide)

end SkillForge
